import Mathlib

/-!
# lang-portal backend: study-tracking store, session recorder and analytics

A shallow embedding of `lang-portal/backend_go/internal/service` (and of the
query builder in `internal/database/query`).  The service functions run SQL
against SQLite; here each table is a list of rows, each query is a list
computation that follows the SQL text clause by clause, and a Go call returns an
`Outcome`: a value, an `error`, or a runtime panic.

Conventions of the embedding

* Go `int`/`int64` values are `Int`; arithmetic done by Go on `int` wraps to 64
  bits (`wrapInt64`).
* `created_at` is a count of whole seconds (SQLite `CURRENT_TIMESTAMP` has a
  resolution of one second); `date(created_at)` is the day number
  `created_at / 86400`, and a `julianday` difference exceeds `1` exactly when
  the two instants are more than `86400` seconds apart.
* A `float64` value is the rational it denotes.  The `success_rate` of
  `GetQuickStats` is computed with the two float64 roundings of the query
  (`roundFloat64`); the `success_rate` of `GetGroupStats` is kept as the mean
  before rounding.
* The store is assumed reachable: `Begin`, `Commit` and the driver itself do
  not fail; the only store errors modelled are a foreign-key violation, an
  empty result (`sql.ErrNoRows`) and a `Scan` of `NULL` into a Go `string`.
-/

namespace LangPortal

/-! ## Go values: errors, outcomes, machine integers -/

/-- Go `error` values produced by the service layer. -/
inductive GoError where
  /-- The value `sql.ErrNoRows`, which the handlers map to a 404. -/
  | errNoRows : GoError
  /-- The SQLite driver error `FOREIGN KEY constraint failed`. -/
  | foreignKeyFailed : GoError
  /-- The `database/sql` error `converting NULL to string is unsupported`, for the named column. -/
  | scanNull (column : String) : GoError
  /-- The value of `fmt.Errorf(msg + ": %w", cause)`. -/
  | wrap (msg : String) (cause : GoError) : GoError
  deriving DecidableEq, Repr

/-- Go `errors.Is(err, target)` for a target that is not itself a wrapper:
walks the `%w` chain. -/
def errorsIs : GoError → GoError → Bool
  | GoError.wrap msg cause, target =>
      (GoError.wrap msg cause == target) || errorsIs cause target
  | e, target => e == target

/-- The `NotFound` kind of the service layer: `errors.Is(err, sql.ErrNoRows)`,
the test the handlers use before answering 404. -/
def isNotFound (e : GoError) : Bool := errorsIs e GoError.errNoRows

/-- What a call of a Go function `func(...) (*T, error)` does: return a value,
return an error, or panic at run time. -/
inductive Outcome (α : Type) where
  | ok (value : α) : Outcome α
  | error (err : GoError) : Outcome α
  | panicked (reason : String) : Outcome α
  deriving DecidableEq, Repr

/-- Two's-complement wrap of a mathematical integer to Go's 64-bit `int`. -/
def wrapInt64 (x : Int) : Int := (x + 2 ^ 63) % 2 ^ 64 - 2 ^ 63

/-- Go `a + b` on `int`. -/
def goAdd (a b : Int) : Int := wrapInt64 (a + b)

/-- Go `a - b` on `int`. -/
def goSub (a b : Int) : Int := wrapInt64 (a - b)

/-- Go `a * b` on `int`. -/
def goMul (a b : Int) : Int := wrapInt64 (a * b)

/-- Go `a / b` on `int`: truncated division, `none` for the run-time panic
`integer divide by zero`. -/
def goDiv (a b : Int) : Option Int :=
  if b = 0 then none else some (wrapInt64 (Int.tdiv a b))

/-! ## Data model (`internal/models`) and the store -/

structure Word where
  id : Int
  chinese : String
  english : String
  parts : String
  createdAt : Nat
  deriving DecidableEq, Repr

structure Group where
  id : Int
  name : String
  createdAt : Nat
  deriving DecidableEq, Repr

/-- A row of the membership table `words_groups`. -/
structure WordGroup where
  wordId : Int
  groupId : Int
  deriving DecidableEq, Repr

structure StudySession where
  id : Int
  createdAt : Nat
  groupId : Int
  studyActivityId : Int
  deriving DecidableEq, Repr

structure WordReviewItem where
  id : Int
  createdAt : Nat
  wordId : Int
  studySessionId : Int
  correct : Bool
  deriving DecidableEq, Repr

/-- The database behind `*sql.DB`: the five tables, and whether an insert on
this connection is checked against the foreign keys of the schema.  SQLite
checks them only after `PRAGMA foreign_keys = ON`, which `database.Initialize`
issues and `setupRouter` in `cmd/server/main.go` does not. -/
structure Store where
  words : List Word
  groups : List Group
  wordsGroups : List WordGroup
  studySessions : List StudySession
  wordReviewItems : List WordReviewItem
  foreignKeys : Bool
  deriving DecidableEq, Repr

/-- Modelled from the spec: the migration files that declare the tables are not
part of the sources.  Identifiers are store-assigned and monotonically unique;
as SQLite does for an `INTEGER PRIMARY KEY`, the new id is one more than the
largest id in the table (1 for an empty table). -/
def nextId (ids : List Int) : Int := ids.foldl max 0 + 1

/-- Modelled from the spec: the migration files are not part of the sources.
`study_sessions.group_id` references `groups.id`; the reference is checked only
on a connection that enforces foreign keys. -/
def sessionInsertAllowed (st : Store) (groupID : Int) : Bool :=
  !st.foreignKeys || st.groups.any (fun g => g.id == groupID)

/-- Modelled from the spec: the migration files are not part of the sources.
`word_review_items.word_id` references `words.id` and
`word_review_items.study_session_id` references `study_sessions.id`; the
references are checked only on a connection that enforces foreign keys. -/
def reviewInsertAllowed (st : Store) (sessionID wordID : Int) : Bool :=
  !st.foreignKeys ||
    (st.words.any (fun w => w.id == wordID) &&
      st.studySessions.any (fun s => s.id == sessionID))

/-! ## SQL helpers -/

/-- Seconds in a day: one unit of `julianday`. -/
def secondsPerDay : Nat := 86400

/-- SQL `date(created_at)`, as a day number. -/
def date (createdAt : Nat) : Nat := createdAt / secondsPerDay

/-- SQL `LIMIT limit OFFSET offset` as SQLite evaluates it: a negative offset
counts as zero and a negative limit as no limit. -/
def limitOffset {α : Type} (limit offset : Int) (rows : List α) : List α :=
  let rest := rows.drop offset.toNat
  if limit < 0 then rest else rest.take limit.toNat

/-- SQL `MAX(x)` over a column without `NULL`s: `none` (SQL `NULL`) for no rows. -/
def sqlMax (xs : List Nat) : Option Nat :=
  match xs with
  | [] => none
  | x :: rest => some (rest.foldl max x)

/-- SQL `AVG(x)` of a column of zeros and ones, given the number of ones and
the number of rows, as the mean before its rounding to a float64
(`sqlAvgFloat64` is the rounded value): `none` (SQL `NULL`) for no rows. -/
def sqlAvg (ones rows : Nat) : Option ℚ :=
  if rows = 0 then none else some ((ones : ℚ) / (rows : ℚ))

/-- SQL `COALESCE(x, 0)`. -/
def coalesceZero (x : Option ℚ) : ℚ := x.getD 0

/-- The exponent of the unit in the last place of the float64 nearest to `x`:
a float64 has a 53-bit significand, so for `2 ^ e ≤ |x| < 2 ^ (e + 1)` the
neighbours of `x` are `2 ^ (e - 52)` apart; below `2 ^ (-1022)` (subnormal
numbers) the spacing stays `2 ^ (-1074)`. -/
def ulpExponent (x : ℚ) : Int := max (Int.log 2 |x|) (-1022) - 52

/-- The integer nearest to `y`; of two equally near integers, the even one. -/
def roundHalfEven (y : ℚ) : Int :=
  if y - ⌊y⌋ < 1 / 2 then ⌊y⌋
  else if 1 / 2 < y - ⌊y⌋ then ⌊y⌋ + 1
  else if ⌊y⌋ % 2 = 0 then ⌊y⌋ else ⌊y⌋ + 1

/-- The result of a float64 operation (IEEE 754 binary64, round to nearest,
ties to even, the mode of both Go and SQLite) whose exact result is `x`, for
`x` below the overflow threshold `2 ^ 1024`. -/
def roundFloat64 (x : ℚ) : ℚ :=
  (roundHalfEven (x / 2 ^ ulpExponent x) : ℚ) * 2 ^ ulpExponent x

/-- SQL `AVG(x)` of a column of the REAL values `0.0` and `1.0`, given the
number of ones and the number of rows: `none` (SQL `NULL`) for no rows,
otherwise the float64 quotient of the sum by the row count.  The running sum
of the ones and the row count are held exactly by a float64 below `2 ^ 53`
rows. -/
def sqlAvgFloat64 (ones rows : Nat) : Option ℚ :=
  if rows = 0 then none else some (roundFloat64 ((ones : ℚ) / (rows : ℚ)))

/-- Go `Scan` of a nullable column into a plain `string` field: `NULL` is an
error (`converting NULL to string is unsupported`). -/
def scanString {α : Type} (column : String) (v : Option α) : Except GoError α :=
  match v with
  | none => Except.error (GoError.scanNull column)
  | some x => Except.ok x

/-- SQL `LEFT JOIN`: the rows matching `l`, or one row with the right side
`NULL` when nothing matches. -/
def leftJoin {α β : Type} (l : α) (found : List β) : List (α × Option β) :=
  match found with
  | [] => [(l, none)]
  | _ :: _ => found.map fun r => (l, some r)

/-! ## GroupService.GetGroupStats -/

/-- Go `models.GroupStats`.  `LastStudiedAt` is a Go `string` holding the text
of a timestamp; it is kept here as the instant that text denotes. -/
structure GroupStats where
  totalWords : Nat
  studiedWords : Nat
  successRate : ℚ
  lastStudiedAt : Nat
  deriving DecidableEq, Repr

/-- Rows of `words w JOIN words_groups wg ON w.id = wg.word_id
LEFT JOIN word_review_items wri ON w.id = wri.word_id WHERE wg.group_id = ?`. -/
def groupStatsRows (st : Store) (id : Int) : List (Word × Option WordReviewItem) :=
  st.words.flatMap fun w =>
    (st.wordsGroups.filter fun wg => w.id == wg.wordId && wg.groupId == id).flatMap fun _ =>
      leftJoin w (st.wordReviewItems.filter fun r => w.id == r.wordId)

/-- SQL `CASE WHEN wri.correct THEN 1.0 ELSE 0.0 END` on a joined row: the
`ELSE` branch is taken both for an incorrect review and for the `NULL` of a
word without review. -/
def caseCorrect (r : Option WordReviewItem) : Bool :=
  match r with
  | some x => x.correct
  | none => false

/-- The column `success_rate` of the CTE `group_stats`:
`COALESCE(AVG(CASE WHEN wri.correct THEN 1.0 ELSE 0.0 END), 0)`. -/
def groupSuccessRate (rows : List (Word × Option WordReviewItem)) : ℚ :=
  coalesceZero (sqlAvg (rows.countP fun row => caseCorrect row.2) rows.length)

/-- The column `COUNT(DISTINCT w.id)`. -/
def groupTotalWords (rows : List (Word × Option WordReviewItem)) : Nat :=
  ((rows.map fun row => row.1.id).dedup).length

/-- The column `COUNT(DISTINCT CASE WHEN wri.id IS NOT NULL THEN w.id END)`. -/
def groupStudiedWords (rows : List (Word × Option WordReviewItem)) : Nat :=
  ((rows.filterMap fun row => row.2.map fun _ => row.1.id).dedup).length

/-- The column `MAX(wri.created_at)`. -/
def groupLastStudiedAt (rows : List (Word × Option WordReviewItem)) : Option Nat :=
  sqlMax (rows.filterMap fun row => row.2.map fun r => r.createdAt)

/-- Go `GroupService.GetGroupStats`: one aggregate row is always produced, and
`Scan` stores its four columns; the last one goes into a plain `string`. -/
def GetGroupStats (st : Store) (id : Int) : Outcome GroupStats :=
  let rows := groupStatsRows st id
  match scanString "last_studied_at" (groupLastStudiedAt rows) with
  | Except.error e => Outcome.error (GoError.wrap "failed to fetch group stats" e)
  | Except.ok last =>
      Outcome.ok
        { totalWords := groupTotalWords rows
          studiedWords := groupStudiedWords rows
          successRate := groupSuccessRate rows * 100
          lastStudiedAt := last }

/-! ## StudyService.GetQuickStats -/

/-- Go `models.QuickStats`. -/
structure QuickStats where
  successRate : ℚ
  totalStudySessions : Nat
  totalActiveGroups : Nat
  studyStreakDays : Nat
  deriving DecidableEq, Repr

/-- Column `success_rate` of the CTE `stats`:
`COALESCE(AVG(CASE WHEN correct THEN 1.0 ELSE 0.0 END) * 100, 0)` over
`word_review_items`, which `Scan` stores in the `float64` field `SuccessRate`:
the mean is one float64 division, and its product with `100` is rounded
again. -/
def quickSuccessRate (reviews : List WordReviewItem) : ℚ :=
  coalesceZero ((sqlAvgFloat64 (reviews.countP fun r => r.correct) reviews.length).map
    fun a => roundFloat64 (a * 100))

/-- Column `total_sessions` of the CTE `stats`:
`COUNT(DISTINCT study_session_id)` over `word_review_items`. -/
def quickTotalSessions (reviews : List WordReviewItem) : Nat :=
  ((reviews.map fun r => r.studySessionId).dedup).length

/-- The CTE `active_groups`: `COUNT(DISTINCT group_id)` over the sessions with
`created_at >= datetime('now', '-30 days')`. -/
def quickActiveGroups (sessions : List StudySession) (now : Nat) : Nat :=
  (((sessions.filter fun s => (now : Int) - 30 * secondsPerDay ≤ s.createdAt).map
    fun s => s.groupId).dedup).length

/-- The window column of the innermost sub-select of the CTE `streak`, over
timestamps already in `ORDER BY created_at` order: each `created_at` with
`julianday(created_at) - julianday(LAG(created_at))`, here in seconds, `none`
(SQL `NULL`) on the first row. -/
def lagGaps : Option Nat → List Nat → List (Nat × Option Int)
  | _, [] => []
  | prev, t :: rest => (t, prev.map fun p => (t : Int) - (p : Int)) :: lagGaps (some t) rest

/-- The predicate `gap > 1 OR gap IS NULL` (one julian day is 86400 seconds). -/
def gapBreaks (gap : Option Int) : Bool :=
  match gap with
  | none => true
  | some g => decide ((secondsPerDay : Int) < g)

/-- The scalar sub-query of the CTE `streak`: `MAX(created_at)` over the rows
whose gap to the previous session exceeds one day or is `NULL`. -/
def streakBoundary (sessions : List StudySession) : Option Nat :=
  let ordered := (sessions.map fun s => s.createdAt).insertionSort (fun a b => a ≤ b)
  sqlMax (((lagGaps none ordered).filter fun row => gapBreaks row.2).map fun row => row.1)

/-- The CTE `streak`: `COUNT(DISTINCT date(created_at))` over the sessions with
`created_at >=` the boundary; a `NULL` boundary selects no row. -/
def streakDays (sessions : List StudySession) : Nat :=
  match streakBoundary sessions with
  | none => 0
  | some b =>
      (((sessions.filter fun s => decide (b ≤ s.createdAt)).map
        fun s => date s.createdAt).dedup).length

/-- Go `StudyService.GetQuickStats`, run when the store clock reads `now`.  The
three CTEs yield one row each, so the final cross join yields one row and
`Scan` succeeds.  (The column `recent_sessions` of `stats` is never selected.) -/
def GetQuickStats (st : Store) (now : Nat) : Outcome QuickStats :=
  Outcome.ok
    { successRate := quickSuccessRate st.wordReviewItems
      totalStudySessions := quickTotalSessions st.wordReviewItems
      totalActiveGroups := quickActiveGroups st.studySessions now
      studyStreakDays := streakDays st.studySessions }

/-! ## Session recorder: StartStudySession, RecordWordReview -/

/-- Go `StudyService.StartStudySession`, run when the store clock reads `now`:
one `INSERT ... RETURNING id, created_at` inside a transaction.  A failed
insert is rolled back, so the store is returned as it was. -/
def StartStudySession (st : Store) (now : Nat) (groupID activityID : Int) :
    Outcome StudySession × Store :=
  if sessionInsertAllowed st groupID then
    let session : StudySession :=
      { id := nextId (st.studySessions.map fun s => s.id)
        createdAt := now
        groupId := groupID
        studyActivityId := activityID }
    (Outcome.ok session, { st with studySessions := st.studySessions ++ [session] })
  else
    (Outcome.error (GoError.wrap "failed to create study session" GoError.foreignKeyFailed), st)

/-- Go `StudyService.RecordWordReview`, run when the store clock reads `now`:
one `INSERT ... RETURNING id, created_at` inside a transaction.  A failed
insert is rolled back, so the store is returned as it was. -/
def RecordWordReview (st : Store) (now : Nat) (sessionID wordID : Int) (correct : Bool) :
    Outcome WordReviewItem × Store :=
  if reviewInsertAllowed st sessionID wordID then
    let review : WordReviewItem :=
      { id := nextId (st.wordReviewItems.map fun r => r.id)
        createdAt := now
        wordId := wordID
        studySessionId := sessionID
        correct := correct }
    (Outcome.ok review, { st with wordReviewItems := st.wordReviewItems ++ [review] })
  else
    (Outcome.error (GoError.wrap "failed to create word review" GoError.foreignKeyFailed), st)

/-! ## Pagination -/

/-- Go `models.Pagination`. -/
structure Pagination where
  currentPage : Int
  totalPages : Int
  totalItems : Int
  itemsPerPage : Int
  deriving DecidableEq, Repr

/-- Go `models.PaginatedResponse[T]`. -/
structure PaginatedResponse (α : Type) where
  items : List α
  pagination : Pagination
  deriving DecidableEq, Repr

/-- The expression `(total + perPage - 1) / perPage` on Go `int`s, `none` when
the division panics. -/
def totalPages (total perPage : Int) : Option Int :=
  goDiv (goSub (goAdd total perPage) 1) perPage

/-- The `return &models.PaginatedResponse[T]{...}, nil` that ends every listing
operation; building the struct evaluates `(total + perPage - 1) / perPage`. -/
def paginatedResponse {α : Type} (items : List α) (page perPage total : Int) :
    Outcome (PaginatedResponse α) :=
  match totalPages total perPage with
  | none => Outcome.panicked "runtime error: integer divide by zero"
  | some pages =>
      Outcome.ok
        { items := items
          pagination :=
            { currentPage := page
              totalPages := pages
              totalItems := total
              itemsPerPage := perPage } }

/-- The guard `if page < 1 { page = 1 }`. -/
def clampPage (page : Int) : Int := if page < 1 then 1 else page

/-- The guard `if perPage < 1 || perPage > 100 { perPage = 100 }`. -/
def clampPerPage (perPage : Int) : Int :=
  if perPage < 1 ∨ perPage > 100 then 100 else perPage

/-- The bound parameters `LIMIT ? OFFSET ?` of the hand-written listings:
`perPage` and `(page-1)*perPage`. -/
def pageOf {α : Type} (page perPage : Int) (rows : List α) : List α :=
  limitOffset perPage (goMul (goSub page 1) perPage) rows

/-- SQL `GROUP BY key`: the rows split into one list per distinct key. -/
def groupRows {α κ : Type} [DecidableEq κ] (key : α → κ) (rows : List α) : List (List α) :=
  ((rows.map key).dedup).map fun k => rows.filter fun r => decide (key r = k)

/-! ## Query builder (`internal/database/query`) -/

/-- A bound argument (`interface{}`) of a query. -/
inductive SqlArg where
  | int (v : Int) : SqlArg
  | text (v : String) : SqlArg
  | bool (v : Bool) : SqlArg
  deriving DecidableEq, Repr

/-- Go `query.QueryBuilder`. -/
structure QueryBuilder where
  base : String
  where_ : List String
  args : List SqlArg
  orderBy : String
  limit : Int
  offset : Int
  deriving DecidableEq, Repr

namespace QueryBuilder

/-- Go `query.New`. -/
def New (base : String) : QueryBuilder :=
  { base := base, where_ := [], args := [], orderBy := "", limit := 0, offset := 0 }

/-- Go `(*QueryBuilder).Where`. -/
def Where (q : QueryBuilder) (condition : String) (args : List SqlArg) : QueryBuilder :=
  { q with where_ := q.where_ ++ [condition], args := q.args ++ args }

/-- Go `(*QueryBuilder).OrderBy`. -/
def OrderBy (q : QueryBuilder) (orderBy : String) : QueryBuilder :=
  { q with orderBy := orderBy }

/-- Go `(*QueryBuilder).Paginate`. -/
def Paginate (q : QueryBuilder) (page perPage : Int) : QueryBuilder :=
  { q with limit := perPage, offset := goMul (goSub page 1) perPage }

/-- The `WHERE ... AND ...` text shared by `Build` and
`buildWithoutOrderAndLimit`. -/
def whereClause (conditions : List String) : String :=
  match conditions with
  | [] => ""
  | first :: rest => rest.foldl (fun acc w => acc ++ " AND " ++ w) (" WHERE " ++ first)

/-- Go `(*QueryBuilder).Build`. -/
def Build (q : QueryBuilder) : String × List SqlArg :=
  let query := q.base ++ whereClause q.where_
  let query := if q.orderBy ≠ "" then query ++ " ORDER BY " ++ q.orderBy else query
  let query :=
    if q.limit > 0 then
      query ++ " LIMIT " ++ toString q.limit ++ " OFFSET " ++ toString q.offset
    else query
  (query, q.args)

/-- Go `(*QueryBuilder).buildWithoutOrderAndLimit`. -/
def buildWithoutOrderAndLimit (q : QueryBuilder) : String × List SqlArg :=
  (q.base ++ whereClause q.where_, q.args)

/-- Go `(*QueryBuilder).Count`. -/
def Count (q : QueryBuilder) : String × List SqlArg :=
  let inner := q.buildWithoutOrderAndLimit
  ("SELECT COUNT(*) FROM (" ++ inner.1 ++ ") AS t", inner.2)

/-- Go `(*QueryBuilder).Execute`, given the rows that the base with its `WHERE`
and `ORDER BY` clauses selects: `Build` appends `LIMIT`/`OFFSET` only when
`limit > 0`. -/
def Execute {α : Type} (q : QueryBuilder) (ordered : List α) : List α :=
  if q.limit > 0 then limitOffset q.limit q.offset ordered else ordered

/-- Go `(*QueryBuilder).ExecuteCount`, given the rows that the base with its
`WHERE` clause selects: `COUNT(*)` over them. -/
def ExecuteCount {α : Type} (_q : QueryBuilder) (selected : List α) : Int :=
  (selected.length : Int)

end QueryBuilder

/-! ## Listing operations -/

/-- Go `models.WordStats`. -/
structure WordStats where
  correctCount : Nat
  wrongCount : Nat
  deriving DecidableEq, Repr

/-- Go `models.WordWithStats`. -/
structure WordWithStats where
  word : Word
  stats : WordStats
  deriving DecidableEq, Repr

/-- Go `models.StudySessionSummary`. -/
structure StudySessionSummary where
  id : Int
  createdAt : Nat
  groupId : Int
  studyActivityId : Int
  groupName : String
  deriving DecidableEq, Repr

/-- Go `models.StudyActivityDetails` (the zero `CreatedAt` is left out). -/
structure StudyActivityDetails where
  id : Int
  studySessionId : Int
  groupId : Int
  name : String
  thumbnailURL : String
  description : String
  deriving DecidableEq, Repr

/-- Go `models.ActivitySessionListItem`.  `StartTime` and `EndTime` are Go
strings holding timestamps; `endTime = none` is the empty string left when
`end_time` is `NULL`. -/
structure ActivitySessionListItem where
  id : Int
  activityName : String
  groupName : String
  startTime : Nat
  endTime : Option Nat
  reviewItemsCount : Nat
  deriving DecidableEq, Repr

/-- The two correlated sub-selects of the words projection:
`COUNT(*) ... WHERE wri.word_id = w.id AND wri.correct = 1` and `... = 0`. -/
def wordWithStats (st : Store) (w : Word) : WordWithStats :=
  { word := w
    stats :=
      { correctCount :=
          (st.wordReviewItems.filter fun r => r.wordId == w.id && r.correct == true).length
        wrongCount :=
          (st.wordReviewItems.filter fun r => r.wordId == w.id && r.correct == false).length } }

/-- The base projection of `GetWords` and `GetWordByID`. -/
def wordsBase : String :=
  "SELECT w.*, " ++
  "(SELECT COUNT(*) FROM word_review_items wri WHERE wri.word_id = w.id AND wri.correct = 1) as correct_count, " ++
  "(SELECT COUNT(*) FROM word_review_items wri WHERE wri.word_id = w.id AND wri.correct = 0) as wrong_count " ++
  "FROM words w"

/-- Go `WordService.GetWords`: no guard on `page` or `perPage`; the total is
`SELECT COUNT(*) FROM words`. -/
def GetWords (st : Store) (page perPage : Int) : Outcome (PaginatedResponse WordWithStats) :=
  let q := ((QueryBuilder.New wordsBase).OrderBy "w.created_at DESC").Paginate page perPage
  let words :=
    q.Execute ((st.words.insertionSort fun a b => b.createdAt ≤ a.createdAt).map (wordWithStats st))
  let total : Int := (st.words.length : Int)
  paginatedResponse words page perPage total

/-- Go `GroupService.GetGroups`: no guard on `page` or `perPage`; the total is
`q.ExecuteCount`.  `ORDER BY name ASC` compares the names code point by code
point. -/
def GetGroups (st : Store) (page perPage : Int) : Outcome (PaginatedResponse Group) :=
  let q := ((QueryBuilder.New "SELECT * FROM groups").OrderBy "name ASC").Paginate page perPage
  let groups := q.Execute (st.groups.insertionSort fun a b => a.name.data ≤ b.name.data)
  let total := q.ExecuteCount st.groups
  paginatedResponse groups page perPage total

/-- Rows of `study_sessions ss JOIN groups g ON g.id = ss.group_id` for the given
sessions, in the projection `ss.id, ss.group_id, ss.study_activity_id,
ss.created_at, g.name`. -/
def sessionSummaries (st : Store) (sessions : List StudySession) : List StudySessionSummary :=
  sessions.flatMap fun ss =>
    (st.groups.filter fun g => g.id == ss.groupId).map fun g =>
      { id := ss.id
        createdAt := ss.createdAt
        groupId := ss.groupId
        studyActivityId := ss.studyActivityId
        groupName := g.name }

/-- Go `StudyService.GetStudySessions`: the data query joins `groups`, the
total is `SELECT COUNT(*) FROM study_sessions`. -/
def GetStudySessions (st : Store) (page perPage : Int) :
    Outcome (PaginatedResponse StudySessionSummary) :=
  let page := clampPage page
  let perPage := clampPerPage perPage
  let items :=
    pageOf page perPage
      ((sessionSummaries st st.studySessions).insertionSort fun a b => b.createdAt ≤ a.createdAt)
  let total : Int := (st.studySessions.length : Int)
  paginatedResponse items page perPage total

/-- Go `GroupService.GetGroupStudySessions`: the data query joins `groups`, the
total is `SELECT COUNT(*) FROM study_sessions WHERE group_id = ?`. -/
def GetGroupStudySessions (st : Store) (groupID : Int) (page perPage : Int) :
    Outcome (PaginatedResponse StudySessionSummary) :=
  let page := clampPage page
  let perPage := clampPerPage perPage
  let items :=
    pageOf page perPage
      ((sessionSummaries st (st.studySessions.filter fun ss => ss.groupId == groupID)).insertionSort
        fun a b => b.createdAt ≤ a.createdAt)
  let total : Int := ((st.studySessions.filter fun ss => ss.groupId == groupID).length : Int)
  paginatedResponse items page perPage total

/-- Rows of `words w JOIN words_groups wg ON w.id = wg.word_id
WHERE wg.group_id = ?`. -/
def groupWordRows (st : Store) (groupID : Int) : List Word :=
  st.words.flatMap fun w =>
    (st.wordsGroups.filter fun wg => w.id == wg.wordId && wg.groupId == groupID).map fun _ => w

/-- Go `GroupService.GetGroupWordsPaginated`: the data query joins `words`, the
total is `SELECT COUNT(*) FROM words_groups WHERE group_id = ?`. -/
def GetGroupWordsPaginated (st : Store) (groupID : Int) (page perPage : Int) :
    Outcome (PaginatedResponse Word) :=
  let page := clampPage page
  let perPage := clampPerPage perPage
  let items :=
    pageOf page perPage
      ((groupWordRows st groupID).insertionSort fun a b => b.createdAt ≤ a.createdAt)
  let total : Int := ((st.wordsGroups.filter fun wg => wg.groupId == groupID).length : Int)
  paginatedResponse items page perPage total

/-- Rows of `words w JOIN word_review_items wri ON wri.word_id = w.id
WHERE wri.study_session_id = ?`. -/
def sessionWordRows (st : Store) (sessionID : Int) : List (Word × WordReviewItem) :=
  st.words.flatMap fun w =>
    (st.wordReviewItems.filter fun r =>
      r.wordId == w.id && r.studySessionId == sessionID).map fun r => (w, r)

/-- The rows of `sessionWordRows` after `GROUP BY w.id`, each with its sort key
`MAX(wri.created_at)`. -/
def sessionWordGroups (st : Store) (sessionID : Int) : List (Word × Nat) :=
  (groupRows (fun row : Word × WordReviewItem => row.1.id) (sessionWordRows st sessionID)).filterMap
    fun g =>
      match g with
      | [] => none
      | row :: rest =>
          some (row.1, (rest.map fun r => r.2.createdAt).foldl max row.2.createdAt)

/-- Go `StudyService.GetStudySessionWords`: the total is
`COUNT(DISTINCT w.id)` over the same join. -/
def GetStudySessionWords (st : Store) (sessionID : Int) (page perPage : Int) :
    Outcome (PaginatedResponse Word) :=
  let page := clampPage page
  let perPage := clampPerPage perPage
  let items :=
    pageOf page perPage
      (((sessionWordGroups st sessionID).insertionSort fun a b => b.2 ≤ a.2).map fun g => g.1)
  let total : Int :=
    ((((sessionWordRows st sessionID).map fun row => row.1.id).dedup).length : Int)
  paginatedResponse items page perPage total

/-- The map literal `catalog` of `GetStudyActivityDetails`: one entry, under
the key 1; the fields the literal does not name are zero. -/
def activityCatalog : List (Int × StudyActivityDetails) :=
  [(1,
    { id := 0
      studySessionId := 0
      groupId := 0
      name := "Vocabulary Quiz"
      thumbnailURL := "https://example.com/thumbnail.jpg"
      description := "Practice your vocabulary with flashcards" })]

/-- Go `StudyService.GetStudyActivityDetails`: `if v, ok := catalog[activityID]`
sets `v.ID` and returns the entry, otherwise `sql.ErrNoRows` is returned. -/
def GetStudyActivityDetails (activityID : Int) : Outcome StudyActivityDetails :=
  match activityCatalog.lookup activityID with
  | some v => Outcome.ok { v with id := activityID }
  | none => Outcome.error GoError.errNoRows

/-- Rows of `study_sessions ss JOIN groups g ON g.id = ss.group_id
LEFT JOIN word_review_items wri ON wri.study_session_id = ss.id
WHERE ss.study_activity_id = ?`. -/
def activitySessionRows (st : Store) (activityID : Int) :
    List ((StudySession × Group) × Option WordReviewItem) :=
  (st.studySessions.filter fun ss => ss.studyActivityId == activityID).flatMap fun ss =>
    (st.groups.filter fun g => g.id == ss.groupId).flatMap fun g =>
      leftJoin (ss, g) (st.wordReviewItems.filter fun r => r.studySessionId == ss.id)

/-- The rows of `activitySessionRows` after `GROUP BY ss.id`, in the projection
`ss.id, g.name, ss.created_at, MAX(wri.created_at), COUNT(wri.id)`, filled into
list items as the scan loop does. -/
def activitySessionItems (st : Store) (activityID : Int) : List ActivitySessionListItem :=
  (groupRows (fun row : (StudySession × Group) × Option WordReviewItem => row.1.1.id)
      (activitySessionRows st activityID)).filterMap
    fun g =>
      match g with
      | [] => none
      | row :: _ =>
          some
            { id := row.1.1.id
              activityName :=
                match GetStudyActivityDetails activityID with
                | Outcome.ok details => details.name
                | _ => ""
              groupName := row.1.2.name
              startTime := row.1.1.createdAt
              endTime := sqlMax (g.filterMap fun r => r.2.map fun x => x.createdAt)
              reviewItemsCount := (g.filterMap fun r => r.2).length }

/-- Go `StudyService.GetStudySessionsByActivity`: the total is
`SELECT COUNT(*) FROM study_sessions WHERE study_activity_id = ?`. -/
def GetStudySessionsByActivity (st : Store) (activityID : Int) (page perPage : Int) :
    Outcome (PaginatedResponse ActivitySessionListItem) :=
  let page := clampPage page
  let perPage := clampPerPage perPage
  let items :=
    pageOf page perPage
      ((activitySessionItems st activityID).insertionSort fun a b => b.startTime ≤ a.startTime)
  let total : Int :=
    ((st.studySessions.filter fun ss => ss.studyActivityId == activityID).length : Int)
  paginatedResponse items page perPage total

/-! ## Single-row reads: GetWordByID, GetStudyProgress, GetLastStudySession -/

/-- Go `WordService.GetWordByID`: the words projection with `WHERE w.id = ?`;
the first row is scanned, and no row is `sql.ErrNoRows`. -/
def GetWordByID (st : Store) (id : Int) : Outcome WordWithStats :=
  let q := (QueryBuilder.New wordsBase).Where "w.id = ?" [SqlArg.int id]
  match q.Execute ((st.words.filter fun w => w.id == id).map (wordWithStats st)) with
  | [] => Outcome.error GoError.errNoRows
  | w :: _ => Outcome.ok w

/-- Go `models.StudyProgress`. -/
structure StudyProgress where
  totalWordsStudied : Nat
  totalAvailableWords : Nat
  deriving DecidableEq, Repr

/-- Go `StudyService.GetStudyProgress`: `COUNT(DISTINCT word_id)` over
`word_review_items` and `(SELECT COUNT(*) FROM words)`; an aggregate without
`GROUP BY` yields one row even over an empty table. -/
def GetStudyProgress (st : Store) : Outcome StudyProgress :=
  Outcome.ok
    { totalWordsStudied := ((st.wordReviewItems.map fun r => r.wordId).dedup).length
      totalAvailableWords := st.words.length }

/-- Go `models.GroupWithWords`. -/
structure GroupWithWords where
  group : Group
  words : List Word
  deriving DecidableEq, Repr

/-- The scan loop of `GetGroupByID`: `rows.Scan(&w.ID, &w.Chinese, &w.English,
&parts, &w.CreatedAt)` reads the blob into the local `parts`, which is never
stored in `w`, so `w.Parts` keeps its zero value (an empty `json.RawMessage`). -/
def scanWordWithoutParts (w : Word) : Word :=
  { id := w.id, chinese := w.chinese, english := w.english, parts := "", createdAt := w.createdAt }

/-- Go `GroupService.GetGroupByID`: the group row first (any failure, also
`sql.ErrNoRows`, is wrapped as `failed to fetch group`), then the words of
`words w JOIN words_groups wg ON w.id = wg.word_id WHERE wg.group_id = ?
ORDER BY w.created_at DESC`. -/
def GetGroupByID (st : Store) (id : Int) : Outcome GroupWithWords :=
  match st.groups.filter fun g => g.id == id with
  | [] => Outcome.error (GoError.wrap "failed to fetch group" GoError.errNoRows)
  | group :: _ =>
      Outcome.ok
        { group := group
          words :=
            ((groupWordRows st id).insertionSort fun a b => b.createdAt ≤ a.createdAt).map
              scanWordWithoutParts }

/-! ## HTTP handlers (the part that prepares `page` and `perPage`) -/

/-- Go `GroupHandler.GetGroups`, from the parsed `page` and `per_page` on: both
are clamped before the service is called. -/
def GroupHandler.GetGroups (st : Store) (page perPage : Int) :
    Outcome (PaginatedResponse Group) :=
  LangPortal.GetGroups st (clampPage page) (clampPerPage perPage)

/-- Go `WordHandler.GetWords`, from the parsed `page` and `per_page` on: both
are clamped before the service is called. -/
def WordHandler.GetWords (st : Store) (page perPage : Int) :
    Outcome (PaginatedResponse WordWithStats) :=
  LangPortal.GetWords st (clampPage page) (clampPerPage perPage)

/-- Go `GroupHandler.GetGroupWords`, from the parsed values on: they are passed
to the service as they are. -/
def GroupHandler.GetGroupWords (st : Store) (id page perPage : Int) :
    Outcome (PaginatedResponse Word) :=
  GetGroupWordsPaginated st id page perPage

/-- Go `GroupHandler.GetGroupStudySessions`, from the parsed values on: they are
passed to the service as they are. -/
def GroupHandler.GetGroupStudySessions (st : Store) (id page perPage : Int) :
    Outcome (PaginatedResponse StudySessionSummary) :=
  LangPortal.GetGroupStudySessions st id page perPage

/-- Go `StudyHandler.GetStudySessions`, from the parsed values on: they are
passed to the service as they are. -/
def StudyHandler.GetStudySessions (st : Store) (page perPage : Int) :
    Outcome (PaginatedResponse StudySessionSummary) :=
  LangPortal.GetStudySessions st page perPage

/-- Go `StudyHandler.GetStudySessionWords`, from the parsed values on: they are
passed to the service as they are. -/
def StudyHandler.GetStudySessionWords (st : Store) (id page perPage : Int) :
    Outcome (PaginatedResponse Word) :=
  LangPortal.GetStudySessionWords st id page perPage

/-- Go `StudyHandler.GetActivityStudySessions`, from the parsed values on: they
are passed to the service as they are. -/
def StudyHandler.GetActivityStudySessions (st : Store) (id page perPage : Int) :
    Outcome (PaginatedResponse ActivitySessionListItem) :=
  GetStudySessionsByActivity st id page perPage

/-! ## The streak as the specification words it -/

/-- Length of the leading run of a list of day numbers in descending order in
which each day is exactly one day before the previous one. -/
def consecutiveRun : List Nat → Nat
  | [] => 0
  | [_] => 1
  | d :: e :: rest => if d = e + 1 then consecutiveRun (e :: rest) + 1 else 1

/-- The streak of the specification: the distinct calendar dates of all
sessions, sorted descending, walked from the most recent date backward up to
the first gap of more than one day. -/
def specStreakDays (sessions : List StudySession) : Nat :=
  consecutiveRun
    (((sessions.map fun s => date s.createdAt).dedup).insertionSort fun a b => b ≤ a)

/-! ## Pages of a listing, and keys that resolve -/

/-- Number of items on the page a listing call returns (0 for a call that
returns no page). -/
def itemCount {α : Type} : Outcome (PaginatedResponse α) → Nat
  | Outcome.ok r => r.items.length
  | _ => 0

/-- Sum of the numbers of items returned for the pages `1 .. pages` of a
listing. -/
def pagesItemSum {α : Type} (listing : Int → Outcome (PaginatedResponse α)) (pages : Int) : Nat :=
  ((List.range pages.toNat).map fun (i : Nat) => itemCount (listing ((i : Int) + 1))).sum

/-- Keys of a store that resolve: session ids are unique (primary key), every
session refers to exactly one group row and every membership row to exactly one
word row (foreign keys into primary keys). -/
def Store.Consistent (st : Store) : Prop :=
  (st.studySessions.map fun s => s.id).Nodup ∧
  (∀ ss ∈ st.studySessions, (st.groups.filter fun g => g.id == ss.groupId).length = 1) ∧
  (∀ wg ∈ st.wordsGroups, (st.words.filter fun w => w.id == wg.wordId).length = 1)

instance (st : Store) : Decidable st.Consistent := by
  unfold Store.Consistent
  infer_instance

/-- Number of rows in the five tables together. -/
def Store.rowCount (st : Store) : Nat :=
  st.words.length + st.groups.length + st.wordsGroups.length + st.studySessions.length +
    st.wordReviewItems.length

/-- The pages of a listing add up: page 1 is returned and reports `matched` (the
number of rows the data query matches without pagination) as `total_items`,
every page from 1 on is returned with the same totals, and the item counts of
the pages `1 .. total_pages` sum to that `total_items`. -/
def PagesAddUp {α : Type} (listing : Int → Outcome (PaginatedResponse α)) (matched : Nat) :
    Prop :=
  ∃ r, listing 1 = Outcome.ok r ∧ r.pagination.totalItems = (matched : Int) ∧
    (∀ page, 1 ≤ page → ∃ items, listing page =
      Outcome.ok { items := items, pagination := { r.pagination with currentPage := page } }) ∧
    (pagesItemSum listing r.pagination.totalPages : Int) = r.pagination.totalItems

/-! ## Review histories and group membership, as the claims word them -/

/-- The review history of one word: the rows of `word_review_items` with that
`word_id`. -/
def reviewsOfWord (st : Store) (wordID : Int) : List WordReviewItem :=
  st.wordReviewItems.filter fun r => r.wordId == wordID

/-- The words that are members of a group: those with a row in `words_groups`
for that group. -/
def memberWords (st : Store) (groupID : Int) : List Word :=
  st.words.filter fun w => st.wordsGroups.any fun wg => wg.wordId == w.id && wg.groupId == groupID

/-- Whether a word has at least one review. -/
def hasReview (st : Store) (w : Word) : Bool :=
  st.wordReviewItems.any fun r => r.wordId == w.id

/-! ## Guarded page and page size -/

/-- The shape of a listing whose page and page size went through the two
guards: it returns, and reports the guarded values. -/
def Guarded {α : Type} (o : Outcome (PaginatedResponse α)) (page perPage : Int) : Prop :=
  ∃ r, o = Outcome.ok r ∧
    r.pagination.currentPage = (if page < 1 then 1 else page) ∧
    1 ≤ r.pagination.currentPage ∧
    r.pagination.itemsPerPage = (if 1 ≤ perPage ∧ perPage ≤ 100 then perPage else 100) ∧
    1 ≤ r.pagination.itemsPerPage ∧ r.pagination.itemsPerPage ≤ 100

/-! ## Example stores -/

/-- A store without rows, on a connection like the one `setupRouter` opens (no
`PRAGMA foreign_keys`). -/
def emptyStore : Store :=
  { words := []
    groups := []
    wordsGroups := []
    studySessions := []
    wordReviewItems := []
    foreignKeys := false }

/-- Three sessions on the consecutive days 2024-10-04 (08:00), 2024-10-05
(09:00) and 2024-10-06 (10:00), each 25 hours after the previous one. -/
def threeDayStore : Store :=
  { emptyStore with
    groups := [⟨1, "Basics", 1727000000⟩]
    studySessions :=
      [⟨1, 1728028800, 1, 1⟩, ⟨2, 1728118800, 1, 1⟩, ⟨3, 1728208800, 1, 1⟩] }

/-- Sessions three days ago (2024-10-04 12:00), yesterday (2024-10-06 08:00) and
today (2024-10-07 20:00), for a clock reading 2024-10-07 21:00. -/
def gapStore : Store :=
  { emptyStore with
    groups := [⟨1, "Basics", 1727000000⟩]
    studySessions :=
      [⟨1, 1728043200, 1, 1⟩, ⟨2, 1728201600, 1, 1⟩, ⟨3, 1728331200, 1, 1⟩] }

/-- The clock reading 2024-10-07 21:00 used with `gapStore`. -/
def gapStoreNow : Nat := 1728334800

/-- A group of three words: word 1 has one correct review, word 2 one incorrect
review, word 3 none. -/
def threeWordStore : Store :=
  { words := [⟨1, "一", "one", "[]", 1727000000⟩, ⟨2, "二", "two", "[]", 1727000000⟩,
      ⟨3, "三", "three", "[]", 1727000000⟩]
    groups := [⟨1, "Numbers", 1727000000⟩]
    wordsGroups := [⟨1, 1⟩, ⟨2, 1⟩, ⟨3, 1⟩]
    studySessions := [⟨1, 1728028800, 1, 1⟩]
    wordReviewItems := [⟨1, 1728028810, 1, 1, true⟩, ⟨2, 1728028820, 2, 1, false⟩]
    foreignKeys := true }

/-- One group with one member word, one started session and no review at all. -/
def unreviewedStore : Store :=
  { words := [⟨1, "一", "one", "[]", 1727000000⟩]
    groups := [⟨1, "Numbers", 1727000000⟩, ⟨2, "Empty", 1727000000⟩]
    wordsGroups := [⟨1, 1⟩]
    studySessions := [⟨1, 1728028800, 1, 1⟩]
    wordReviewItems := []
    foreignKeys := true }

/-- One word, one group, one session and 25 reviews of the word in that
session, ten seconds apart; the first 7 are correct. -/
def roundingStore : Store :=
  { words := [⟨1, "一", "one", "[]", 1727000000⟩]
    groups := [⟨1, "Numbers", 1727000000⟩]
    wordsGroups := [⟨1, 1⟩]
    studySessions := [⟨1, 1728028800, 1, 1⟩]
    wordReviewItems :=
      (List.range 25).map fun (i : Nat) =>
        ⟨(i : Int) + 1, 1728028810 + 10 * i, 1, 1, decide (i < 7)⟩
    foreignKeys := true }

/-- Two groups and nothing else. -/
def twoGroupStore : Store :=
  { emptyStore with
    groups := [⟨1, "Numbers", 1727000000⟩, ⟨2, "Colors", 1727000100⟩] }

/-- One word, one group and one session, on a connection that enforces foreign
keys (as `database.Initialize` sets it up). -/
def enforcedStore : Store :=
  { words := [⟨1, "一", "one", "[]", 1727000000⟩]
    groups := [⟨1, "Numbers", 1727000000⟩]
    wordsGroups := [⟨1, 1⟩]
    studySessions := [⟨1, 1728028800, 1, 1⟩]
    wordReviewItems := [⟨1, 1728028810, 1, 1, true⟩]
    foreignKeys := true }

/-- One session, started on 2024-09-04 at 08:00, exactly 30 days before the
clock reading `windowNow`. -/
def windowStore : Store :=
  { emptyStore with
    groups := [⟨1, "Basics", 1725000000⟩]
    studySessions := [⟨1, 1725436800, 1, 1⟩] }

/-- The clock reading 2024-10-04 08:00:00, 30 days after the session of
`windowStore`. -/
def windowNow : Nat := 1728028800

/-! ## Analytics: what the queries compute on the example histories -/

/-- Claim C1, evaluated: for sessions on the three consecutive calendar days
2024-10-04, 2024-10-05 and 2024-10-06 (the streak of the specification is 3),
each session 25 hours after the previous one, `GetQuickStats` reports
`study_streak_days = 1`: the gap is measured between timestamps, so every
session more than 24 hours after its predecessor restarts the streak. -/
theorem streak_three_consecutive_days_is_one :
    (threeDayStore.studySessions.map fun s => date s.createdAt) = [20000, 20001, 20002] ∧
    specStreakDays threeDayStore.studySessions = 3 ∧
    streakBoundary threeDayStore.studySessions = some 1728208800 ∧
    ∃ q, GetQuickStats threeDayStore 1728212400 = Outcome.ok q ∧ q.studyStreakDays = 1 := by
  refine ⟨by decide, by decide, by decide, _, rfl, ?_⟩
  show streakDays threeDayStore.studySessions = 1
  decide

/-- Claim C2, evaluated: with sessions today (20:00), yesterday (08:00) and three
days ago, `GetQuickStats` reports `study_streak_days = 1`, not 2: yesterday and
today are 36 hours apart, which the query takes for a break. -/
theorem streak_today_yesterday_is_one :
    (gapStore.studySessions.map fun s => date s.createdAt) =
      [date gapStoreNow - 3, date gapStoreNow - 1, date gapStoreNow] ∧
    specStreakDays gapStore.studySessions = 2 ∧
    ∃ q, GetQuickStats gapStore gapStoreNow = Outcome.ok q ∧ q.studyStreakDays = 1 := by
  refine ⟨by decide, by decide, _, rfl, ?_⟩
  show streakDays gapStore.studySessions = 1
  decide

/-- Claim C3, evaluated: for a group of three words with one correct review on
one word, one incorrect review on another and none on the third,
`GetGroupStats` reports `success_rate = 100/3` (33.3), not 50: the word without
review contributes a row whose `CASE` takes the `ELSE 0.0` branch, and that row
enters the mean. -/
theorem groupStats_unreviewed_word_enters_mean :
    groupStatsRows threeWordStore 1 =
      [(⟨1, "一", "one", "[]", 1727000000⟩, some ⟨1, 1728028810, 1, 1, true⟩),
       (⟨2, "二", "two", "[]", 1727000000⟩, some ⟨2, 1728028820, 2, 1, false⟩),
       (⟨3, "三", "three", "[]", 1727000000⟩, none)] ∧
    GetGroupStats threeWordStore 1 =
      Outcome.ok
        { totalWords := 3, studiedWords := 2, successRate := 100 / 3,
          lastStudiedAt := 1728028820 } ∧
    (100 / 3 : ℚ) ≠ 50 := by
  have hrows : groupStatsRows threeWordStore 1 =
      [(⟨1, "一", "one", "[]", 1727000000⟩, some ⟨1, 1728028810, 1, 1, true⟩),
       (⟨2, "二", "two", "[]", 1727000000⟩, some ⟨2, 1728028820, 2, 1, false⟩),
       (⟨3, "三", "three", "[]", 1727000000⟩, none)] := by decide
  refine ⟨hrows, ?_, by norm_num⟩
  simp [GetGroupStats, groupLastStudiedAt, groupTotalWords, groupStudiedWords,
    groupSuccessRate, hrows, sqlMax, scanString, sqlAvg, coalesceZero, caseCorrect]
  norm_num

/-- Claim C4, evaluated: with one study session in the store and no review
recorded in it, `GetQuickStats` reports `total_study_sessions = 0`: the count
is `COUNT(DISTINCT study_session_id)` over `word_review_items`, which sees only
the sessions that have a review. -/
theorem quickStats_ignores_sessions_without_review :
    unreviewedStore.studySessions.length = 1 ∧
    ∃ q, GetQuickStats unreviewedStore 1728030000 = Outcome.ok q ∧
      q.totalStudySessions = 0 := by
  refine ⟨by decide, _, rfl, ?_⟩
  show quickTotalSessions unreviewedStore.wordReviewItems = 0
  decide

/-- Claim C5, evaluated: for an existing group whose only word has no review
(group 1) and for an existing group without words (group 2), `GetGroupStats`
returns an error: `MAX(wri.created_at)` is `NULL` and `Scan` cannot store
`NULL` in the Go `string` field `LastStudiedAt`. -/
theorem groupStats_without_reviews_fails :
    GetGroupStats unreviewedStore 1 =
      Outcome.error
        (GoError.wrap "failed to fetch group stats" (GoError.scanNull "last_studied_at")) ∧
    GetGroupStats unreviewedStore 2 =
      Outcome.error
        (GoError.wrap "failed to fetch group stats" (GoError.scanNull "last_studied_at")) := by
  have h1 : groupLastStudiedAt (groupStatsRows unreviewedStore 1) = none := by decide
  have h2 : groupLastStudiedAt (groupStatsRows unreviewedStore 2) = none := by decide
  constructor
  · simp [GetGroupStats, h1, scanString]
  · simp [GetGroupStats, h2, scanString]

/-! ## Machine integers and the page count -/

theorem wrapInt64_of_fits (x : Int) (hlo : -(2 ^ 63) ≤ x) (hhi : x < 2 ^ 63) :
    wrapInt64 x = x := by
  unfold wrapInt64
  omega

theorem wrapInt64_sub_one (x : Int) : wrapInt64 (wrapInt64 x - 1) = wrapInt64 (x - 1) := by
  unfold wrapInt64
  omega

theorem ceil_div_eq (n d : Int) (hd : 1 ≤ d) :
    ⌈(n : ℚ) / (d : ℚ)⌉ = (n + d - 1) / d := by
  have hdpos : (0 : ℚ) < (d : ℚ) := by exact_mod_cast (by omega : (0 : Int) < d)
  rw [Int.ceil_eq_iff]
  have hmod := Int.emod_add_ediv (n + d - 1) d
  have hr0 := Int.emod_nonneg (n + d - 1) (by omega : d ≠ 0)
  have hr1 := Int.emod_lt_of_pos (n + d - 1) (by omega : 0 < d)
  constructor
  · rw [lt_div_iff₀ hdpos]
    have : ((n + d - 1) / d - 1) * d < n := by nlinarith
    exact_mod_cast this
  · rw [div_le_iff₀ hdpos]
    have : n ≤ ((n + d - 1) / d) * d := by nlinarith
    exact_mod_cast this

/-- The page count when nothing overflows: the mathematical quotient. -/
theorem totalPages_of_fits (total perPage : Int) (htotal : 0 ≤ total) (hper : 1 ≤ perPage)
    (hfit : total + perPage - 1 < 2 ^ 63) :
    totalPages total perPage = some ((total + perPage - 1) / perPage) := by
  have hnum : goSub (goAdd total perPage) 1 = total + perPage - 1 := by
    unfold goSub goAdd
    rw [wrapInt64_sub_one]
    exact wrapInt64_of_fits _ (by omega) hfit
  have hq0 : 0 ≤ (total + perPage - 1) / perPage :=
    Int.ediv_nonneg (by omega) (by omega)
  have hq1 : (total + perPage - 1) / perPage ≤ total + perPage - 1 :=
    Int.ediv_le_self _ (by omega)
  unfold totalPages goDiv
  rw [hnum, if_neg (by omega : ¬ perPage = 0),
    Int.tdiv_eq_ediv (by omega : 0 ≤ total + perPage - 1) (by omega : 0 ≤ perPage)]
  rw [wrapInt64_of_fits _ (by omega) (by omega)]

theorem quotient_eq_zero_iff (total perPage : Int) (htotal : 0 ≤ total) (hper : 1 ≤ perPage) :
    (total + perPage - 1) / perPage = 0 ↔ total = 0 := by
  constructor
  · intro h
    have hmod := Int.emod_add_ediv (total + perPage - 1) perPage
    have hr1 := Int.emod_lt_of_pos (total + perPage - 1) (by omega : 0 < perPage)
    rw [h] at hmod
    simp at hmod
    omega
  · intro h
    subst h
    exact Int.ediv_eq_zero_of_lt (by omega) (by omega)

/-- A listing returns normally whenever its page size is not zero. -/
theorem paginatedResponse_ok {α : Type} (items : List α) (page perPage total : Int)
    (hper : perPage ≠ 0) :
    ∃ pages, paginatedResponse items page perPage total =
      Outcome.ok
        { items := items
          pagination :=
            { currentPage := page, totalPages := pages, totalItems := total,
              itemsPerPage := perPage } } := by
  refine ⟨wrapInt64 (Int.tdiv (goSub (goAdd total perPage) 1) perPage), ?_⟩
  simp [paginatedResponse, totalPages, goDiv, hper]

/-- Claim C9, refuted as stated: with 2 groups and `perPage = 2^63 - 1`,
`GetGroups` (which does not guard its page size) reports `total_pages = -1`,
because `total + perPage - 1` wraps around; the ceiling of `2 / (2^63 - 1)` is 1. -/
theorem totalPages_wraps_for_huge_perPage :
    GetGroups twoGroupStore 1 9223372036854775807 =
      Outcome.ok
        { items := [⟨2, "Colors", 1727000100⟩, ⟨1, "Numbers", 1727000000⟩]
          pagination :=
            { currentPage := 1, totalPages := -1, totalItems := 2,
              itemsPerPage := 9223372036854775807 } } ∧
    ⌈((2 : Int) : ℚ) / ((9223372036854775807 : Int) : ℚ)⌉ = 1 := by
  refine ⟨by decide, ?_⟩
  rw [ceil_div_eq _ _ (by norm_num)]
  norm_num

/-- Claim C9, amended: for every `total_items >= 0` and `items_per_page >= 1`
with `total_items + items_per_page - 1` below `2^63` (no overflow of the Go
`int`), the response built by every listing operation reports
`total_pages = (total + perPage - 1) / perPage = ceil(total_items / items_per_page)`,
and this is 0 exactly when `total_items` is 0. -/
theorem totalPages_is_ceil {α : Type} (items : List α) (page total perPage : Int)
    (htotal : 0 ≤ total) (hper : 1 ≤ perPage) (hfit : total + perPage - 1 < 2 ^ 63) :
    ∃ r, paginatedResponse items page perPage total = Outcome.ok r ∧
      r.pagination.totalItems = total ∧ r.pagination.itemsPerPage = perPage ∧
      r.pagination.totalPages = (total + perPage - 1) / perPage ∧
      r.pagination.totalPages = ⌈(total : ℚ) / (perPage : ℚ)⌉ ∧
      (r.pagination.totalPages = 0 ↔ total = 0) := by
  refine ⟨{ items := items
            pagination :=
              { currentPage := page, totalPages := (total + perPage - 1) / perPage,
                totalItems := total, itemsPerPage := perPage } }, ?_, rfl, rfl, rfl, ?_, ?_⟩
  · simp [paginatedResponse, totalPages_of_fits total perPage htotal hper hfit]
  · exact (ceil_div_eq total perPage hper).symm
  · exact quotient_eq_zero_iff total perPage htotal hper

/-- Witness for `totalPages_is_ceil`: 7 items in pages of 3. -/
theorem totalPages_is_ceil_witness :
    ∃ r, paginatedResponse ([] : List Group) 1 3 7 = Outcome.ok r ∧
      r.pagination.totalItems = 7 ∧ r.pagination.itemsPerPage = 3 ∧
      r.pagination.totalPages = (7 + 3 - 1) / 3 ∧
      r.pagination.totalPages = ⌈((7 : Int) : ℚ) / ((3 : Int) : ℚ)⌉ ∧
      (r.pagination.totalPages = 0 ↔ (7 : Int) = 0) :=
  totalPages_is_ceil [] 1 7 3 (by decide) (by decide) (by decide)

/-! ## A page size of zero -/

theorem clampPerPage_zero : clampPerPage 0 = 100 := by decide

theorem clampPerPage_ne_zero (perPage : Int) : clampPerPage perPage ≠ 0 := by
  unfold clampPerPage
  split <;> omega

/-- Called directly, `GetGroups` and `GetWords` do not guard the page size: with
`perPage = 0` the division in the `return` statement panics. -/
theorem GetGroups_zero_perPage_panics (st : Store) (page : Int) :
    GetGroups st page 0 = Outcome.panicked "runtime error: integer divide by zero" ∧
    GetWords st page 0 = Outcome.panicked "runtime error: integer divide by zero" := by
  constructor <;> rfl

/-- Claim C6, refuted as stated: `GetStudySessions` called with
`items_per_page = 0` does not fail, it answers with a page size of 100; and
`GetGroups` and `GetWords`, called directly with `items_per_page = 0`, do not
return an error either: they reach the division by zero and panic. -/
theorem zero_perPage_not_rejected :
    GetStudySessions enforcedStore 1 0 =
      Outcome.ok
        { items := [⟨1, 1728028800, 1, 1, "Numbers"⟩]
          pagination :=
            { currentPage := 1, totalPages := 1, totalItems := 1, itemsPerPage := 100 } } ∧
    GetGroups enforcedStore 1 0 =
      Outcome.panicked "runtime error: integer divide by zero" ∧
    GetWords enforcedStore 1 0 =
      Outcome.panicked "runtime error: integer divide by zero" := by
  decide

/-- Claim C6, amended: a call with `items_per_page = 0` is not rejected.  The
five listings that guard their page size in the service, and `GetGroups` and
`GetWords` reached through their handlers, replace 0 by 100: the call returns
normally, exactly as the call with a page size of 100 does, and reports
`items_per_page = 100`, so the page count is never computed with a zero
divisor. -/
theorem zero_perPage_is_clamped (st : Store) (id page : Int) :
    (GetStudySessions st page 0 = GetStudySessions st page 100 ∧
      ∃ r, GetStudySessions st page 0 = Outcome.ok r ∧ r.pagination.itemsPerPage = 100) ∧
    (GetStudySessionWords st id page 0 = GetStudySessionWords st id page 100 ∧
      ∃ r, GetStudySessionWords st id page 0 = Outcome.ok r ∧
        r.pagination.itemsPerPage = 100) ∧
    (GetStudySessionsByActivity st id page 0 = GetStudySessionsByActivity st id page 100 ∧
      ∃ r, GetStudySessionsByActivity st id page 0 = Outcome.ok r ∧
        r.pagination.itemsPerPage = 100) ∧
    (GetGroupWordsPaginated st id page 0 = GetGroupWordsPaginated st id page 100 ∧
      ∃ r, GetGroupWordsPaginated st id page 0 = Outcome.ok r ∧
        r.pagination.itemsPerPage = 100) ∧
    (GetGroupStudySessions st id page 0 = GetGroupStudySessions st id page 100 ∧
      ∃ r, GetGroupStudySessions st id page 0 = Outcome.ok r ∧
        r.pagination.itemsPerPage = 100) ∧
    (GroupHandler.GetGroups st page 0 = GroupHandler.GetGroups st page 100 ∧
      ∃ r, GroupHandler.GetGroups st page 0 = Outcome.ok r ∧
        r.pagination.itemsPerPage = 100) ∧
    (WordHandler.GetWords st page 0 = WordHandler.GetWords st page 100 ∧
      ∃ r, WordHandler.GetWords st page 0 = Outcome.ok r ∧
        r.pagination.itemsPerPage = 100) := by
  refine ⟨⟨rfl, ?_⟩, ⟨rfl, ?_⟩, ⟨rfl, ?_⟩, ⟨rfl, ?_⟩, ⟨rfl, ?_⟩, ⟨rfl, ?_⟩, ⟨rfl, ?_⟩⟩
  · obtain ⟨pages, h⟩ := paginatedResponse_ok
      (pageOf (clampPage page) 100
        ((sessionSummaries st st.studySessions).insertionSort fun a b => b.createdAt ≤ a.createdAt))
      (clampPage page) 100 (st.studySessions.length : Int) (by decide)
    exact ⟨_, h, rfl⟩
  · obtain ⟨pages, h⟩ := paginatedResponse_ok
      (pageOf (clampPage page) 100
        (((sessionWordGroups st id).insertionSort fun a b => b.2 ≤ a.2).map fun g => g.1))
      (clampPage page) 100
      ((((sessionWordRows st id).map fun row => row.1.id).dedup).length : Int) (by decide)
    exact ⟨_, h, rfl⟩
  · obtain ⟨pages, h⟩ := paginatedResponse_ok
      (pageOf (clampPage page) 100
        ((activitySessionItems st id).insertionSort fun a b => b.startTime ≤ a.startTime))
      (clampPage page) 100
      ((st.studySessions.filter fun ss => ss.studyActivityId == id).length : Int) (by decide)
    exact ⟨_, h, rfl⟩
  · obtain ⟨pages, h⟩ := paginatedResponse_ok
      (pageOf (clampPage page) 100
        ((groupWordRows st id).insertionSort fun a b => b.createdAt ≤ a.createdAt))
      (clampPage page) 100
      ((st.wordsGroups.filter fun wg => wg.groupId == id).length : Int) (by decide)
    exact ⟨_, h, rfl⟩
  · obtain ⟨pages, h⟩ := paginatedResponse_ok
      (pageOf (clampPage page) 100
        ((sessionSummaries st (st.studySessions.filter fun ss => ss.groupId == id)).insertionSort
          fun a b => b.createdAt ≤ a.createdAt))
      (clampPage page) 100
      ((st.studySessions.filter fun ss => ss.groupId == id).length : Int) (by decide)
    exact ⟨_, h, rfl⟩
  · obtain ⟨pages, h⟩ := paginatedResponse_ok
      ((((QueryBuilder.New "SELECT * FROM groups").OrderBy "name ASC").Paginate
          (clampPage page) 100).Execute
        (st.groups.insertionSort fun a b => a.name.data ≤ b.name.data))
      (clampPage page) 100 (st.groups.length : Int) (by decide)
    exact ⟨_, h, rfl⟩
  · obtain ⟨pages, h⟩ := paginatedResponse_ok
      ((((QueryBuilder.New wordsBase).OrderBy "w.created_at DESC").Paginate
          (clampPage page) 100).Execute
        ((st.words.insertionSort fun a b => b.createdAt ≤ a.createdAt).map (wordWithStats st)))
      (clampPage page) 100 (st.words.length : Int) (by decide)
    exact ⟨_, h, rfl⟩

/-! ## Session recorder -/

theorem foldl_max_ge_init (ids : List Int) (init : Int) : init ≤ ids.foldl max init := by
  induction ids generalizing init with
  | nil => exact le_refl _
  | cons x rest ih => exact le_trans (le_max_left init x) (ih (max init x))

theorem foldl_max_ge_mem (ids : List Int) (init : Int) (x : Int) (hx : x ∈ ids) :
    x ≤ ids.foldl max init := by
  induction ids generalizing init with
  | nil => cases hx
  | cons y rest ih =>
    rcases List.mem_cons.mp hx with h | h
    · subst h
      exact le_trans (le_max_right init x) (foldl_max_ge_init rest (max init x))
    · exact ih (max init y) h

/-- The store-assigned id is larger than every id already in the table. -/
theorem lt_nextId (ids : List Int) (x : Int) (hx : x ∈ ids) : x < nextId ids := by
  have := foldl_max_ge_mem ids 0 x hx
  unfold nextId
  omega

/-- Claim C7, refuted as stated, for session 99 (no such session).  On a
connection that enforces foreign keys the call fails, but with the wrapped
constraint failure of the store, which is not `sql.ErrNoRows`, the only value
the service layer and the handlers treat as not found.  On a connection that
does not enforce them (the one `setupRouter` opens) the call succeeds and the
review table grows by one row. -/
theorem RecordWordReview_unknown_session_not_NotFound :
    (RecordWordReview enforcedStore 1728030000 99 1 true =
        (Outcome.error
          (GoError.wrap "failed to create word review" GoError.foreignKeyFailed),
         enforcedStore) ∧
      isNotFound (GoError.wrap "failed to create word review" GoError.foreignKeyFailed) =
        false) ∧
    ((RecordWordReview emptyStore 1728030000 99 1 true).1 =
        Outcome.ok ⟨1, 1728030000, 1, 99, true⟩ ∧
      emptyStore.wordReviewItems.length = 0 ∧
      (RecordWordReview emptyStore 1728030000 99 1 true).2.wordReviewItems.length = 1) := by
  decide

/-- Claim C7, amended: for every session id that matches no study session (and
any word id and outcome), on a connection that enforces foreign keys
`RecordWordReview` fails with the wrapped store error
`failed to create word review: FOREIGN KEY constraint failed` (not a NotFound
error) and leaves the store as it was: the review table has the same rows, so
the same row count, after the call as before. -/
theorem RecordWordReview_unknown_session (st : Store) (now : Nat) (sessionID wordID : Int)
    (correct : Bool) (hfk : st.foreignKeys = true)
    (hnone : ∀ s ∈ st.studySessions, s.id ≠ sessionID) :
    (RecordWordReview st now sessionID wordID correct).1 =
      Outcome.error (GoError.wrap "failed to create word review" GoError.foreignKeyFailed) ∧
    isNotFound (GoError.wrap "failed to create word review" GoError.foreignKeyFailed) = false ∧
    (RecordWordReview st now sessionID wordID correct).2 = st ∧
    (RecordWordReview st now sessionID wordID correct).2.wordReviewItems.length =
      st.wordReviewItems.length := by
  have hany : st.studySessions.any (fun s => s.id == sessionID) = false := by
    rw [List.any_eq_false]
    intro s hs
    simpa using hnone s hs
  have hallowed : reviewInsertAllowed st sessionID wordID = false := by
    simp [reviewInsertAllowed, hfk, hany]
  simp [RecordWordReview, hallowed, isNotFound, errorsIs]

/-- Witness for `RecordWordReview_unknown_session`: session 99 in
`enforcedStore`. -/
theorem RecordWordReview_unknown_session_witness :
    (RecordWordReview enforcedStore 1728030000 99 1 true).1 =
      Outcome.error (GoError.wrap "failed to create word review" GoError.foreignKeyFailed) ∧
    isNotFound (GoError.wrap "failed to create word review" GoError.foreignKeyFailed) = false ∧
    (RecordWordReview enforcedStore 1728030000 99 1 true).2 = enforcedStore ∧
    (RecordWordReview enforcedStore 1728030000 99 1 true).2.wordReviewItems.length =
      enforcedStore.wordReviewItems.length :=
  RecordWordReview_unknown_session enforcedStore 1728030000 99 1 true rfl (by decide)

/-- Claim C8, refuted as stated, for group 7 (no such group).  On a connection
that enforces foreign keys the call fails, but with the wrapped constraint
failure of the store, not a NotFound (`sql.ErrNoRows`) error.  On a connection
that does not enforce them (the one `setupRouter` opens) the call succeeds and
a session row for group 7 is created. -/
theorem StartStudySession_unknown_group_not_NotFound :
    (StartStudySession enforcedStore 1728030000 7 1 =
        (Outcome.error
          (GoError.wrap "failed to create study session" GoError.foreignKeyFailed),
         enforcedStore) ∧
      isNotFound (GoError.wrap "failed to create study session" GoError.foreignKeyFailed) =
        false) ∧
    StartStudySession emptyStore 1728030000 7 1 =
      (Outcome.ok ⟨1, 1728030000, 7, 1⟩,
       { emptyStore with studySessions := [⟨1, 1728030000, 7, 1⟩] }) := by
  decide

/-- Claim C8, amended: for every group id that matches no group, on a
connection that enforces foreign keys `StartStudySession` fails with the
wrapped store error `failed to create study session: FOREIGN KEY constraint
failed` (not a NotFound error) and creates no session row; and whenever it
succeeds, exactly one session row is appended, nothing else changes, and the
returned session is that row: it carries the given `group_id` and
`activity_id`, the store-assigned id (larger than every id already present) and
the store timestamp. -/
theorem StartStudySession_contract (st : Store) (now : Nat) (groupID activityID : Int) :
    (st.foreignKeys = true → (∀ g ∈ st.groups, g.id ≠ groupID) →
      (StartStudySession st now groupID activityID).1 =
        Outcome.error
          (GoError.wrap "failed to create study session" GoError.foreignKeyFailed) ∧
      isNotFound (GoError.wrap "failed to create study session" GoError.foreignKeyFailed) =
        false ∧
      (StartStudySession st now groupID activityID).2 = st) ∧
    (∀ session, (StartStudySession st now groupID activityID).1 = Outcome.ok session →
      (StartStudySession st now groupID activityID).2 =
        { st with studySessions := st.studySessions ++ [session] } ∧
      (StartStudySession st now groupID activityID).2.studySessions.length =
        st.studySessions.length + 1 ∧
      session.groupId = groupID ∧ session.studyActivityId = activityID ∧
      session.createdAt = now ∧
      session.id = nextId (st.studySessions.map fun s => s.id) ∧
      ∀ s ∈ st.studySessions, s.id < session.id) := by
  constructor
  · intro hfk hnone
    have hany : st.groups.any (fun g => g.id == groupID) = false := by
      rw [List.any_eq_false]
      intro g hg
      simpa using hnone g hg
    have hallowed : sessionInsertAllowed st groupID = false := by
      simp [sessionInsertAllowed, hfk, hany]
    simp [StartStudySession, hallowed, isNotFound, errorsIs]
  · intro session hok
    by_cases hallowed : sessionInsertAllowed st groupID = true
    · simp only [StartStudySession, hallowed, if_true] at hok ⊢
      have hs : session = ⟨nextId (st.studySessions.map fun s => s.id), now, groupID,
          activityID⟩ := by
        injection hok with h
        exact h.symm
      subst hs
      refine ⟨rfl, by simp, rfl, rfl, rfl, rfl, ?_⟩
      intro s hs
      exact lt_nextId _ _ (List.mem_map_of_mem (fun s => s.id) hs)
    · simp [StartStudySession, hallowed] at hok

/-- Witness for `StartStudySession_contract`: in `enforcedStore`, group 7 is
refused and group 1 gets session 2. -/
theorem StartStudySession_contract_witness :
    ((StartStudySession enforcedStore 1728030000 7 1).1 =
        Outcome.error
          (GoError.wrap "failed to create study session" GoError.foreignKeyFailed) ∧
      isNotFound (GoError.wrap "failed to create study session" GoError.foreignKeyFailed) =
        false ∧
      (StartStudySession enforcedStore 1728030000 7 1).2 = enforcedStore) ∧
    ((StartStudySession enforcedStore 1728030000 1 1).2 =
        { enforcedStore with
          studySessions := enforcedStore.studySessions ++ [⟨2, 1728030000, 1, 1⟩] } ∧
      (StartStudySession enforcedStore 1728030000 1 1).2.studySessions.length =
        enforcedStore.studySessions.length + 1 ∧
      (⟨2, 1728030000, 1, 1⟩ : StudySession).groupId = 1 ∧
      (⟨2, 1728030000, 1, 1⟩ : StudySession).studyActivityId = 1 ∧
      (⟨2, 1728030000, 1, 1⟩ : StudySession).createdAt = 1728030000 ∧
      (⟨2, 1728030000, 1, 1⟩ : StudySession).id =
        nextId (enforcedStore.studySessions.map fun s => s.id) ∧
      ∀ s ∈ enforcedStore.studySessions, s.id < (⟨2, 1728030000, 1, 1⟩ : StudySession).id) :=
  ⟨(StartStudySession_contract enforcedStore 1728030000 7 1).1 rfl (by decide),
   (StartStudySession_contract enforcedStore 1728030000 1 1).2 ⟨2, 1728030000, 1, 1⟩
     (by decide)⟩

/-! ## Pages add up -/

theorem sum_page_sizes (n k m : Nat) :
    ((List.range m).map fun i => min k (n - i * k)).sum = min (m * k) n := by
  induction m with
  | zero => simp
  | succ m ih =>
    rw [List.range_succ, List.map_append, List.sum_append, ih, Nat.succ_mul]
    simp only [List.map_cons, List.map_nil, List.sum_cons, List.sum_nil]
    omega

theorem length_pageOf {α : Type} (rows : List α) (i : Nat) (perPage : Int) (hper : 1 ≤ perPage)
    (hfit : (i : Int) * perPage < 2 ^ 63) :
    (pageOf ((i : Int) + 1) perPage rows).length =
      min perPage.toNat (rows.length - i * perPage.toNat) := by
  have hi : (i : Int) < 2 ^ 63 := by nlinarith
  have hsub : goSub ((i : Int) + 1) 1 = (i : Int) := by
    unfold goSub
    rw [wrapInt64_of_fits _ (by omega) (by omega)]
    omega
  have hmul : goMul (i : Int) perPage = (i : Int) * perPage := by
    unfold goMul
    exact wrapInt64_of_fits _ (by nlinarith) hfit
  have hoff : ((i : Int) * perPage).toNat = i * perPage.toNat := by
    have : ((i : Int) * perPage) = ((i * perPage.toNat : Nat) : Int) := by
      push_cast
      rw [Int.toNat_of_nonneg (by omega)]
    rw [this, Int.toNat_natCast]
  unfold pageOf limitOffset
  rw [hsub, hmul, hoff, if_neg (by omega)]
  simp [List.length_take, List.length_drop]

theorem paginatedResponse_of_fits {α : Type} (items : List α) (page total perPage : Int)
    (htotal : 0 ≤ total) (hper : 1 ≤ perPage) (hfit : total + perPage - 1 < 2 ^ 63) :
    paginatedResponse items page perPage total =
      Outcome.ok
        { items := items
          pagination :=
            { currentPage := page, totalPages := (total + perPage - 1) / perPage,
              totalItems := total, itemsPerPage := perPage } } := by
  simp [paginatedResponse, totalPages_of_fits total perPage htotal hper hfit]

theorem listing_pages_sum {α : Type} (rows : List α)
    (listing : Int → Outcome (PaginatedResponse α)) (perPage : Int)
    (hlisting : ∀ page, 1 ≤ page →
      listing page = paginatedResponse (pageOf page perPage rows) page perPage rows.length)
    (hper : 1 ≤ perPage) (hfit : (rows.length : Int) + perPage ≤ 2 ^ 63) :
    ∃ r, listing 1 = Outcome.ok r ∧ r.pagination.totalItems = rows.length ∧
      (∀ page, 1 ≤ page → ∃ items, listing page =
        Outcome.ok { items := items, pagination := { r.pagination with currentPage := page } }) ∧
      (pagesItemSum listing r.pagination.totalPages : Int) = r.pagination.totalItems := by
  have hn : (0 : Int) ≤ rows.length := Int.natCast_nonneg _
  have hfit1 : (rows.length : Int) + perPage - 1 < 2 ^ 63 := by omega
  have hmod := Int.emod_add_ediv ((rows.length : Int) + perPage - 1) perPage
  have hr0 := Int.emod_nonneg ((rows.length : Int) + perPage - 1) (by omega : perPage ≠ 0)
  have hr1 := Int.emod_lt_of_pos ((rows.length : Int) + perPage - 1) (by omega : 0 < perPage)
  have hq0 : 0 ≤ ((rows.length : Int) + perPage - 1) / perPage :=
    Int.ediv_nonneg (by omega) (by omega)
  set tp : Int := ((rows.length : Int) + perPage - 1) / perPage with htp
  have hcover : (rows.length : Int) ≤ perPage * tp := by omega
  refine ⟨_, (hlisting 1 (le_refl 1)).trans
    (paginatedResponse_of_fits _ 1 rows.length perPage hn hper hfit1), rfl, ?_, ?_⟩
  · intro page hpage
    exact ⟨_, (hlisting page hpage).trans
      (paginatedResponse_of_fits _ page rows.length perPage hn hper hfit1)⟩
  show ((pagesItemSum listing tp : Nat) : Int) = (rows.length : Int)
  have hk : ((perPage.toNat : Nat) : Int) = perPage := Int.toNat_of_nonneg (by omega)
  have ht : ((tp.toNat : Nat) : Int) = tp := Int.toNat_of_nonneg hq0
  have hsum : pagesItemSum listing tp =
      ((List.range tp.toNat).map fun i => min perPage.toNat (rows.length - i * perPage.toNat)).sum := by
    unfold pagesItemSum
    congr 1
    apply List.map_congr_left
    intro i hi
    have hi' : i < tp.toNat := List.mem_range.mp hi
    have hile : (i : Int) + 1 ≤ tp := by omega
    have hbound : (i : Int) * perPage < 2 ^ 63 := by nlinarith
    rw [hlisting _ (by omega), paginatedResponse_of_fits _ _ rows.length perPage hn hper hfit1]
    exact length_pageOf rows i perPage hper hbound
  rw [hsum, sum_page_sizes]
  have hcov : rows.length ≤ tp.toNat * perPage.toNat := by
    have : ((rows.length : Nat) : Int) ≤ ((tp.toNat * perPage.toNat : Nat) : Int) := by
      push_cast
      rw [hk, ht]
      linarith
    exact_mod_cast this
  rw [min_eq_right hcov]

theorem length_sessionSummaries (st : Store) (sessions : List StudySession)
    (h : ∀ ss ∈ sessions, (st.groups.filter fun g => g.id == ss.groupId).length = 1) :
    (sessionSummaries st sessions).length = sessions.length := by
  induction sessions with
  | nil => rfl
  | cons ss rest ih =>
    have h1 := h ss (List.mem_cons_self ss rest)
    have h2 := ih fun x hx => h x (List.mem_cons_of_mem ss hx)
    unfold sessionSummaries at h2 ⊢
    rw [List.flatMap_cons, List.length_append, List.length_map, h1, h2, List.length_cons]
    omega

theorem length_groupWordRows_aux (words : List Word) (wgs : List WordGroup) (groupID : Int)
    (h : ∀ wg ∈ wgs, (words.filter fun w => w.id == wg.wordId).length = 1) :
    (words.flatMap fun w =>
      (wgs.filter fun wg => w.id == wg.wordId && wg.groupId == groupID).map fun _ => w).length =
      (wgs.filter fun wg => wg.groupId == groupID).length := by
  induction wgs with
  | nil =>
    induction words with
    | nil => rfl
    | cons w rest ih => simpa [List.flatMap_cons] using ih (by simp)
  | cons wg rest ih =>
    have h1 := h wg (List.mem_cons_self wg rest)
    have h2 := ih fun x hx => h x (List.mem_cons_of_mem wg hx)
    have hsplit : ∀ ws : List Word,
        (ws.flatMap fun w =>
          ((wg :: rest).filter fun wg => w.id == wg.wordId && wg.groupId == groupID).map
            fun _ => w).length =
        (if wg.groupId == groupID then (ws.filter fun w => w.id == wg.wordId).length else 0) +
        (ws.flatMap fun w =>
          (rest.filter fun wg => w.id == wg.wordId && wg.groupId == groupID).map
            fun _ => w).length := by
      intro ws
      induction ws with
      | nil => simp
      | cons w ws ihw =>
        rw [List.flatMap_cons, List.length_append, ihw, List.flatMap_cons, List.length_append]
        by_cases hg : wg.groupId == groupID <;> by_cases hw : w.id == wg.wordId <;>
          simp [List.filter_cons, hg, hw] <;> omega
    rw [hsplit words, h2, h1]
    by_cases hg : wg.groupId == groupID
    · simp [List.filter_cons, hg]
      omega
    · simp [List.filter_cons, hg]

theorem length_groupWordRows (st : Store) (groupID : Int)
    (h : ∀ wg ∈ st.wordsGroups, (st.words.filter fun w => w.id == wg.wordId).length = 1) :
    (groupWordRows st groupID).length =
      (st.wordsGroups.filter fun wg => wg.groupId == groupID).length :=
  length_groupWordRows_aux st.words st.wordsGroups groupID h

/-- After `GROUP BY`, a projection that yields a row for every non-empty group
yields as many rows as there are distinct keys. -/
theorem length_filterMap_groupRows {α β κ : Type} [DecidableEq κ] (key : α → κ)
    (rows : List α) (f : List α → Option β) (hf : ∀ g : List α, g ≠ [] → (f g).isSome) :
    ((groupRows key rows).filterMap f).length = ((rows.map key).dedup).length := by
  unfold groupRows
  have hkeys : ∀ k ∈ (rows.map key).dedup, (rows.filter fun r => decide (key r = k)) ≠ [] := by
    intro k hk
    rw [List.mem_dedup, List.mem_map] at hk
    obtain ⟨r, hr, hrk⟩ := hk
    intro hempty
    have : r ∈ rows.filter fun r => decide (key r = k) := by
      simp [List.mem_filter, hr, hrk]
    rw [hempty] at this
    cases this
  generalize (rows.map key).dedup = keys at hkeys
  induction keys with
  | nil => rfl
  | cons k ks ih =>
    have hk := hf _ (hkeys k (List.mem_cons_self k ks))
    obtain ⟨b, hb⟩ := Option.isSome_iff_exists.mp hk
    rw [List.map_cons, List.filterMap_cons_some hb, List.length_cons, List.length_cons,
      ih fun x hx => hkeys x (List.mem_cons_of_mem k hx)]

theorem mem_leftJoin_fst {α β : Type} (l : α) (found : List β) (row : α × Option β)
    (h : row ∈ leftJoin l found) : row.1 = l := by
  unfold leftJoin at h
  cases found with
  | nil =>
    simp at h
    rw [h]
  | cons b rest =>
    simp only [List.mem_map] at h
    obtain ⟨r, _, hr⟩ := h
    rw [← hr]

theorem exists_mem_leftJoin {α β : Type} (l : α) (found : List β) :
    ∃ row, row ∈ leftJoin l found := by
  unfold leftJoin
  cases found with
  | nil => exact ⟨(l, none), List.mem_singleton_self _⟩
  | cons b rest => exact ⟨(l, some b), by simp⟩

theorem length_dedup_congr {κ : Type} [DecidableEq κ] (a b : List κ)
    (h : ∀ x, x ∈ a ↔ x ∈ b) : a.dedup.length = b.dedup.length := by
  apply List.Perm.length_eq
  rw [List.perm_ext_iff_of_nodup (List.nodup_dedup a) (List.nodup_dedup b)]
  intro x
  rw [List.mem_dedup, List.mem_dedup]
  exact h x

theorem length_activitySessionItems (st : Store) (activityID : Int) (hst : st.Consistent) :
    (activitySessionItems st activityID).length =
      (st.studySessions.filter fun ss => ss.studyActivityId == activityID).length := by
  obtain ⟨hnodup, hgroups, _⟩ := hst
  unfold activitySessionItems
  rw [length_filterMap_groupRows]
  · have hnd : ((st.studySessions.filter fun ss => ss.studyActivityId == activityID).map
        fun s => s.id).Nodup :=
      hnodup.sublist ((List.filter_sublist _).map _)
    rw [← List.length_map (st.studySessions.filter fun ss => ss.studyActivityId == activityID)
      (fun s => s.id), ← hnd.dedup]
    apply length_dedup_congr
    intro x
    simp only [List.mem_map, activitySessionRows, List.mem_flatMap]
    constructor
    · rintro ⟨row, ⟨ss, hss, g, _, hrow⟩, hx⟩
      have := mem_leftJoin_fst _ _ _ hrow
      exact ⟨ss, hss, by rw [← hx, this]⟩
    · rintro ⟨ss, hss, hx⟩
      have hmem : ss ∈ st.studySessions := (List.mem_filter.mp hss).1
      have hlen := hgroups ss hmem
      obtain ⟨g, hg⟩ := List.exists_mem_of_length_pos (by omega :
        0 < (st.groups.filter fun g => g.id == ss.groupId).length)
      obtain ⟨row, hrow⟩ := exists_mem_leftJoin (ss, g)
        (st.wordReviewItems.filter fun r => r.studySessionId == ss.id)
      have := mem_leftJoin_fst _ _ _ hrow
      exact ⟨row, ⟨ss, hss, g, hg, hrow⟩, by rw [this]; exact hx⟩
  · intro g hg
    cases g with
    | nil => exact absurd rfl hg
    | cons row rest => rfl

theorem length_sessionWordGroups (st : Store) (sessionID : Int) :
    (sessionWordGroups st sessionID).length =
      (((sessionWordRows st sessionID).map fun row => row.1.id).dedup).length := by
  unfold sessionWordGroups
  rw [length_filterMap_groupRows]
  intro g hg
  cases g with
  | nil => exact absurd rfl hg
  | cons row rest => rfl

theorem clampPage_of_pos (page : Int) (h : 1 ≤ page) : clampPage page = page := by
  unfold clampPage
  rw [if_neg (by omega)]

theorem clampPerPage_bounds (perPage : Int) (h : 1 ≤ perPage) :
    1 ≤ clampPerPage perPage ∧ clampPerPage perPage ≤ perPage := by
  unfold clampPerPage
  split <;> omega

theorem listing_adds_up {α : Type} (rows : List α)
    (listing : Int → Outcome (PaginatedResponse α)) (perPage : Int)
    (hlisting : ∀ page, 1 ≤ page →
      listing page = paginatedResponse (pageOf page perPage rows) page perPage rows.length)
    (hper : 1 ≤ perPage) (hfit : (rows.length : Int) + perPage ≤ 2 ^ 63) :
    PagesAddUp listing rows.length := by
  exact listing_pages_sum rows listing perPage hlisting hper hfit

theorem length_dedup_le_of_subset {κ : Type} [DecidableEq κ] (a b : List κ) (h : a ⊆ b) :
    a.dedup.length ≤ b.length :=
  (List.subperm_of_subset (List.nodup_dedup a)
    (fun _ hx => h (List.mem_dedup.mp hx))).length_le

theorem length_sessionWordGroups_le (st : Store) (sessionID : Int) :
    (sessionWordGroups st sessionID).length ≤ st.words.length := by
  rw [length_sessionWordGroups, ← List.length_map st.words fun w => w.id]
  apply length_dedup_le_of_subset
  intro x hx
  simp only [List.mem_map, sessionWordRows, List.mem_flatMap] at hx ⊢
  obtain ⟨row, ⟨w, hw, r, _, hrow⟩, hx⟩ := hx
  exact ⟨w, hw, by rw [← hx, ← hrow]⟩

/-- Claim C10, amended: for every store state whose keys resolve (unique
session ids, every session with exactly one group row, every membership with
exactly one word row), every listing operation and every `items_per_page >= 1`
such that the stored rows plus `items_per_page` do not exceed `2^63`, page 1 is
returned, its `total_items` is the number of rows the data query matches when
pagination is ignored, and the numbers of items returned for pages
`1 .. total_pages` sum to `total_items`; this includes the listings whose
count query is written apart from the data query. -/
theorem pages_sum_to_total (st : Store) (id perPage : Int) (hst : st.Consistent)
    (hper : 1 ≤ perPage) (hfit : (st.rowCount : Int) + perPage ≤ 2 ^ 63) :
    PagesAddUp (fun page => GetStudySessions st page perPage)
      (sessionSummaries st st.studySessions).length ∧
    PagesAddUp (fun page => GetGroupStudySessions st id page perPage)
      (sessionSummaries st (st.studySessions.filter fun ss => ss.groupId == id)).length ∧
    PagesAddUp (fun page => GetGroupWordsPaginated st id page perPage)
      (groupWordRows st id).length ∧
    PagesAddUp (fun page => GetStudySessionWords st id page perPage)
      (sessionWordGroups st id).length ∧
    PagesAddUp (fun page => GetStudySessionsByActivity st id page perPage)
      (activitySessionItems st id).length ∧
    PagesAddUp (fun page => GetGroups st page perPage) st.groups.length ∧
    PagesAddUp (fun page => GetWords st page perPage) st.words.length := by
  obtain ⟨hc1, hc2⟩ := clampPerPage_bounds perPage hper
  have hrc : st.rowCount = st.words.length + st.groups.length + st.wordsGroups.length +
      st.studySessions.length + st.wordReviewItems.length := rfl
  have hfit' : (st.words.length : Int) + st.groups.length + st.wordsGroups.length +
      st.studySessions.length + st.wordReviewItems.length + perPage ≤ 2 ^ 63 := by
    rw [hrc] at hfit
    push_cast at hfit
    exact hfit
  refine ⟨?_, ?_, ?_, ?_, ?_, ?_, ?_⟩
  · -- GetStudySessions
    have hlen : ((sessionSummaries st st.studySessions).insertionSort
        fun a b => b.createdAt ≤ a.createdAt).length = st.studySessions.length := by
      rw [List.length_insertionSort, length_sessionSummaries st _ hst.2.1]
    have hm : (sessionSummaries st st.studySessions).length =
        ((sessionSummaries st st.studySessions).insertionSort
          fun a b => b.createdAt ≤ a.createdAt).length := by
      rw [List.length_insertionSort]
    rw [hm]
    apply listing_adds_up _ _ (clampPerPage perPage) _ hc1 (by rw [hlen]; omega)
    intro page hpage
    simp only [GetStudySessions, clampPage_of_pos page hpage, hlen]
  · -- GetGroupStudySessions
    have hsub : ∀ ss ∈ st.studySessions.filter (fun ss => ss.groupId == id),
        (st.groups.filter fun g => g.id == ss.groupId).length = 1 :=
      fun ss hss => hst.2.1 ss (List.mem_filter.mp hss).1
    have hle := List.length_filter_le (fun ss : StudySession => ss.groupId == id) st.studySessions
    have hlen : ((sessionSummaries st (st.studySessions.filter fun ss => ss.groupId == id)).insertionSort
        fun a b => b.createdAt ≤ a.createdAt).length =
        (st.studySessions.filter fun ss => ss.groupId == id).length := by
      rw [List.length_insertionSort, length_sessionSummaries st _ hsub]
    have hm : (sessionSummaries st (st.studySessions.filter fun ss => ss.groupId == id)).length =
        ((sessionSummaries st (st.studySessions.filter fun ss => ss.groupId == id)).insertionSort
          fun a b => b.createdAt ≤ a.createdAt).length := by
      rw [List.length_insertionSort]
    rw [hm]
    apply listing_adds_up _ _ (clampPerPage perPage) _ hc1 (by rw [hlen]; omega)
    intro page hpage
    simp only [GetGroupStudySessions, clampPage_of_pos page hpage, hlen]
  · -- GetGroupWordsPaginated
    have hle := List.length_filter_le (fun wg : WordGroup => wg.groupId == id) st.wordsGroups
    have hlen : ((groupWordRows st id).insertionSort
        fun a b => b.createdAt ≤ a.createdAt).length =
        (st.wordsGroups.filter fun wg => wg.groupId == id).length := by
      rw [List.length_insertionSort, length_groupWordRows st id hst.2.2]
    have hm : (groupWordRows st id).length =
        ((groupWordRows st id).insertionSort fun a b => b.createdAt ≤ a.createdAt).length := by
      rw [List.length_insertionSort]
    rw [hm]
    apply listing_adds_up _ _ (clampPerPage perPage) _ hc1 (by rw [hlen]; omega)
    intro page hpage
    simp only [GetGroupWordsPaginated, clampPage_of_pos page hpage, hlen]
  · -- GetStudySessionWords
    have hle := length_sessionWordGroups_le st id
    have hlen : (((sessionWordGroups st id).insertionSort fun a b => b.2 ≤ a.2).map
        fun g => g.1).length =
        (((sessionWordRows st id).map fun row => row.1.id).dedup).length := by
      rw [List.length_map, List.length_insertionSort, length_sessionWordGroups]
    have hm : (sessionWordGroups st id).length =
        (((sessionWordGroups st id).insertionSort fun a b => b.2 ≤ a.2).map
          fun g => g.1).length := by
      rw [List.length_map, List.length_insertionSort]
    rw [hm]
    apply listing_adds_up _ _ (clampPerPage perPage) _ hc1 (by rw [← hm]; omega)
    intro page hpage
    simp only [GetStudySessionWords, clampPage_of_pos page hpage, hlen]
  · -- GetStudySessionsByActivity
    have hle := List.length_filter_le (fun ss : StudySession => ss.studyActivityId == id)
      st.studySessions
    have hlen : ((activitySessionItems st id).insertionSort
        fun a b => b.startTime ≤ a.startTime).length =
        (st.studySessions.filter fun ss => ss.studyActivityId == id).length := by
      rw [List.length_insertionSort, length_activitySessionItems st id hst]
    have hm : (activitySessionItems st id).length =
        ((activitySessionItems st id).insertionSort
          fun a b => b.startTime ≤ a.startTime).length := by
      rw [List.length_insertionSort]
    rw [hm]
    apply listing_adds_up _ _ (clampPerPage perPage) _ hc1 (by rw [hlen]; omega)
    intro page hpage
    simp only [GetStudySessionsByActivity, clampPage_of_pos page hpage, hlen]
  · -- GetGroups
    have hlen : (st.groups.insertionSort fun a b => a.name.data ≤ b.name.data).length =
        st.groups.length := List.length_insertionSort _ _
    rw [← hlen]
    apply listing_adds_up _ _ perPage _ hper (by rw [hlen]; omega)
    intro page _
    simp only [GetGroups, QueryBuilder.Execute, QueryBuilder.ExecuteCount, QueryBuilder.Paginate,
      QueryBuilder.OrderBy, QueryBuilder.New, pageOf, hlen]
    rw [if_pos (by omega : perPage > 0)]
  · -- GetWords
    have hlen : ((st.words.insertionSort fun a b => b.createdAt ≤ a.createdAt).map
        (wordWithStats st)).length = st.words.length := by
      rw [List.length_map, List.length_insertionSort]
    rw [← hlen]
    apply listing_adds_up _ _ perPage _ hper (by rw [hlen]; omega)
    intro page _
    simp only [GetWords, QueryBuilder.Execute, QueryBuilder.Paginate,
      QueryBuilder.OrderBy, QueryBuilder.New, pageOf, hlen]
    rw [if_pos (by omega : perPage > 0)]

/-- Witness for `pages_sum_to_total`: `enforcedStore`, id 1, pages of 2. -/
theorem pages_sum_to_total_witness :
    PagesAddUp (fun page => GetStudySessions enforcedStore page 2)
      (sessionSummaries enforcedStore enforcedStore.studySessions).length ∧
    PagesAddUp (fun page => GetGroupStudySessions enforcedStore 1 page 2)
      (sessionSummaries enforcedStore
        (enforcedStore.studySessions.filter fun ss => ss.groupId == 1)).length ∧
    PagesAddUp (fun page => GetGroupWordsPaginated enforcedStore 1 page 2)
      (groupWordRows enforcedStore 1).length ∧
    PagesAddUp (fun page => GetStudySessionWords enforcedStore 1 page 2)
      (sessionWordGroups enforcedStore 1).length ∧
    PagesAddUp (fun page => GetStudySessionsByActivity enforcedStore 1 page 2)
      (activitySessionItems enforcedStore 1).length ∧
    PagesAddUp (fun page => GetGroups enforcedStore page 2) enforcedStore.groups.length ∧
    PagesAddUp (fun page => GetWords enforcedStore page 2) enforcedStore.words.length :=
  pages_sum_to_total enforcedStore 1 2 (by decide) (by decide) (by decide)

/-- Claim C10, refuted as stated.  On a connection that does not enforce
foreign keys, `StartStudySession` for group 7 (no such group) stores a session;
then `GetStudySessions` reports `total_items = 1` and `total_pages = 1` (its
count query reads `study_sessions` alone) while page 1 is empty (its data query
joins `groups`), so the pages sum to 0.  And `GetGroups` with 2 groups and
`items_per_page = 2^63 - 1` reports `total_pages = -1`, so that no page is
summed. -/
theorem orphan_session_counted_but_not_listed :
    StartStudySession emptyStore 1728030000 7 1 =
      (Outcome.ok ⟨1, 1728030000, 7, 1⟩,
       { emptyStore with studySessions := [⟨1, 1728030000, 7, 1⟩] }) ∧
    GetStudySessions (StartStudySession emptyStore 1728030000 7 1).2 1 10 =
      Outcome.ok
        { items := []
          pagination :=
            { currentPage := 1, totalPages := 1, totalItems := 1, itemsPerPage := 10 } } ∧
    pagesItemSum
      (fun page => GetStudySessions (StartStudySession emptyStore 1728030000 7 1).2 page 10) 1 =
      0 ∧
    (¬ ∃ matched,
      PagesAddUp
        (fun page => GetStudySessions (StartStudySession emptyStore 1728030000 7 1).2 page 10)
        matched) ∧
    GetGroups twoGroupStore 1 9223372036854775807 =
      Outcome.ok
        { items := [⟨2, "Colors", 1727000100⟩, ⟨1, "Numbers", 1727000000⟩]
          pagination :=
            { currentPage := 1, totalPages := -1, totalItems := 2,
              itemsPerPage := 9223372036854775807 } } ∧
    pagesItemSum (fun page => GetGroups twoGroupStore page 9223372036854775807) (-1) = 0 := by
  refine ⟨by decide, by decide, by decide, ?_, by decide, by decide⟩
  rintro ⟨matched, r, hr, _, _, hsum⟩
  have h1 : GetStudySessions (StartStudySession emptyStore 1728030000 7 1).2 1 10 =
      Outcome.ok
        { items := []
          pagination :=
            { currentPage := 1, totalPages := 1, totalItems := 1, itemsPerPage := 10 } } := by
    decide
  have hr' : Outcome.ok r = Outcome.ok
        { items := []
          pagination :=
            { currentPage := 1, totalPages := 1, totalItems := 1, itemsPerPage := 10 } } :=
    hr.symm.trans h1
  injection hr' with hr'
  subst hr'
  have h0 : pagesItemSum
      (fun page => GetStudySessions (StartStudySession emptyStore 1728030000 7 1).2 page 10) 1 =
      0 := by decide
  simp only [h0] at hsum
  exact absurd hsum (by decide)

/-! ## Query builder: count and pagination -/

theorem intercalate_go_append (sep x acc : String) (rest : List String) :
    String.intercalate.go (x ++ acc) sep rest = x ++ String.intercalate.go acc sep rest := by
  induction rest generalizing acc with
  | nil => rfl
  | cons w ws ih =>
    simp only [String.intercalate.go]
    rw [String.append_assoc, String.append_assoc, ← String.append_assoc acc, ih]

theorem foldl_and_eq_go (acc : String) (rest : List String) :
    rest.foldl (fun a w => a ++ " AND " ++ w) acc = String.intercalate.go acc " AND " rest := by
  induction rest generalizing acc with
  | nil => rfl
  | cons w ws ih =>
    simp only [List.foldl_cons, String.intercalate.go]
    exact ih _

/-- The `WHERE` text: nothing without a condition, otherwise the conditions in
the order they were added, joined by `AND`. -/
theorem whereClause_eq (conditions : List String) :
    QueryBuilder.whereClause conditions =
      if conditions = [] then "" else " WHERE " ++ " AND ".intercalate conditions := by
  cases conditions with
  | nil => rfl
  | cons c cs =>
    simp only [QueryBuilder.whereClause, String.intercalate, if_neg (List.cons_ne_nil c cs)]
    rw [foldl_and_eq_go, intercalate_go_append]

/-- Claim C11: for every builder state, `Count` and `Build` carry the same
argument list and the same filter text (the base followed by the conditions in
the order they were added, joined by `AND`); the text of `Count` is that filter
text wrapped in `SELECT COUNT(*) FROM (...) AS t`, which is what `Build` yields
once order and pagination are cleared, so no `ORDER BY`, `LIMIT` or `OFFSET`
clause enters it and `Count` is unchanged by `OrderBy`, by `Paginate` and by
any other change of the order and pagination fields; for the builder of
`GetGroups` it is `SELECT COUNT(*) FROM (SELECT * FROM groups) AS t` whatever
the page. -/
theorem Count_same_filter (q : QueryBuilder) (orderBy : String) (page perPage : Int) :
    (QueryBuilder.Count q).2 = (QueryBuilder.Build q).2 ∧
    (QueryBuilder.Count q).1 =
      "SELECT COUNT(*) FROM (" ++ (q.base ++ QueryBuilder.whereClause q.where_) ++ ") AS t" ∧
    (∃ tail, (QueryBuilder.Build q).1 = q.base ++ QueryBuilder.whereClause q.where_ ++ tail) ∧
    QueryBuilder.whereClause q.where_ =
      (if q.where_ = [] then "" else " WHERE " ++ " AND ".intercalate q.where_) ∧
    (QueryBuilder.Build { q with orderBy := "", limit := 0, offset := 0 }).1 =
      q.base ++ QueryBuilder.whereClause q.where_ ∧
    QueryBuilder.Count (q.OrderBy orderBy) = QueryBuilder.Count q ∧
    QueryBuilder.Count (q.Paginate page perPage) = QueryBuilder.Count q ∧
    (∀ (o : String) (l f : Int),
      QueryBuilder.Count { q with orderBy := o, limit := l, offset := f } =
        QueryBuilder.Count q) ∧
    QueryBuilder.Count
        (((QueryBuilder.New "SELECT * FROM groups").OrderBy "name ASC").Paginate page perPage) =
      ("SELECT COUNT(*) FROM (SELECT * FROM groups) AS t", []) := by
  refine ⟨rfl, rfl, ?_, whereClause_eq q.where_, ?_, rfl, rfl, fun _ _ _ => rfl, rfl⟩
  · by_cases ho : q.orderBy = "" <;> by_cases hl : q.limit > 0
    · exact ⟨"" ++ (" LIMIT " ++ toString q.limit ++ " OFFSET " ++ toString q.offset), by
        simp [QueryBuilder.Build, ho, hl, String.append_assoc]⟩
    · exact ⟨"", by simp [QueryBuilder.Build, ho, hl]⟩
    · exact ⟨" ORDER BY " ++ q.orderBy ++
        (" LIMIT " ++ toString q.limit ++ " OFFSET " ++ toString q.offset), by
        simp [QueryBuilder.Build, ho, hl, String.append_assoc]⟩
    · exact ⟨" ORDER BY " ++ q.orderBy, by
        simp [QueryBuilder.Build, ho, hl, String.append_assoc]⟩
  · simp [QueryBuilder.Build]

/-- Claim C12, refuted as stated: for `page = -2^63` (below 1) and
`per_page = 1`, `page - 1` wraps around and `Build` emits the positive offset
`2^63 - 1`, while `(page-1)*per_page` is `-2^63 - 1`. -/
theorem Paginate_offset_wraps :
    (QueryBuilder.Build
        ((QueryBuilder.New "SELECT * FROM groups").Paginate (-9223372036854775808) 1)).1 =
      "SELECT * FROM groups LIMIT 1 OFFSET 9223372036854775807" ∧
    ((-9223372036854775808 : Int) - 1) * 1 = -9223372036854775809 := by
  decide

/-- Claim C12, amended: for every integer `page` and every `per_page >= 1`, the
query produced by `Build` after `Paginate(page, per_page)` ends with
`LIMIT per_page OFFSET o`, where `o` is the Go value of `(page-1)*per_page`,
computed without any clamping of `page`; whenever `(page-1)*per_page` fits in
the 64-bit `int`, `o` is exactly `(page-1)*per_page`, so that `page < 1`
yields a zero or negative offset, passed through unchanged. -/
theorem Build_Paginate_suffix (q : QueryBuilder) (page perPage : Int) (hper : 1 ≤ perPage) :
    (q.Paginate page perPage).limit = perPage ∧
    (q.Paginate page perPage).offset = goMul (goSub page 1) perPage ∧
    (∃ head, (QueryBuilder.Build (q.Paginate page perPage)).1 =
      head ++ (" LIMIT " ++ toString perPage ++ " OFFSET " ++
        toString (goMul (goSub page 1) perPage))) ∧
    (-(2 ^ 63) ≤ (page - 1) * perPage → (page - 1) * perPage < 2 ^ 63 →
      goMul (goSub page 1) perPage = (page - 1) * perPage ∧
      (∃ head, (QueryBuilder.Build (q.Paginate page perPage)).1 =
        head ++ (" LIMIT " ++ toString perPage ++ " OFFSET " ++
          toString ((page - 1) * perPage))) ∧
      (page < 1 → (page - 1) * perPage ≤ 0)) := by
  have hsuffix : ∃ head, (QueryBuilder.Build (q.Paginate page perPage)).1 =
      head ++ (" LIMIT " ++ toString perPage ++ " OFFSET " ++
        toString (goMul (goSub page 1) perPage)) := by
    have hl : (q.Paginate page perPage).limit > 0 := by
      show perPage > 0
      omega
    by_cases ho : q.orderBy = ""
    · exact ⟨q.base ++ QueryBuilder.whereClause q.where_, by
        simp [QueryBuilder.Build, QueryBuilder.Paginate, ho, (by omega : 0 < perPage),
          String.append_assoc]⟩
    · exact ⟨q.base ++ QueryBuilder.whereClause q.where_ ++ (" ORDER BY " ++ q.orderBy), by
        simp [QueryBuilder.Build, QueryBuilder.Paginate, ho, (by omega : 0 < perPage),
          String.append_assoc]⟩
  refine ⟨rfl, rfl, hsuffix, ?_⟩
  intro hlo hhi
  have hp : -(2 ^ 63) ≤ page - 1 ∧ page - 1 < 2 ^ 63 := by
    constructor <;> nlinarith
  have hsub : goSub page 1 = page - 1 := wrapInt64_of_fits _ hp.1 hp.2
  have hmul : goMul (goSub page 1) perPage = (page - 1) * perPage := by
    rw [hsub]
    exact wrapInt64_of_fits _ hlo hhi
  refine ⟨hmul, ?_, ?_⟩
  · rw [← hmul]
    exact hsuffix
  · intro hpage
    nlinarith

/-- Witness for `Build_Paginate_suffix`: page 0 with 10 items per page gives
`OFFSET -10`. -/
theorem Build_Paginate_suffix_witness :
    ((QueryBuilder.New "SELECT * FROM groups").Paginate 0 10).limit = 10 ∧
    ((QueryBuilder.New "SELECT * FROM groups").Paginate 0 10).offset = goMul (goSub 0 1) 10 ∧
    (∃ head, (QueryBuilder.Build ((QueryBuilder.New "SELECT * FROM groups").Paginate 0 10)).1 =
      head ++ (" LIMIT " ++ toString (10 : Int) ++ " OFFSET " ++
        toString (goMul (goSub 0 1) 10))) ∧
    (goMul (goSub 0 1) 10 = (0 - 1) * 10 ∧
      (∃ head, (QueryBuilder.Build ((QueryBuilder.New "SELECT * FROM groups").Paginate 0 10)).1 =
        head ++ (" LIMIT " ++ toString (10 : Int) ++ " OFFSET " ++
          toString (((0 : Int) - 1) * 10))) ∧
      ((0 : Int) < 1 → ((0 : Int) - 1) * 10 ≤ 0)) :=
  let h := Build_Paginate_suffix (QueryBuilder.New "SELECT * FROM groups") 0 10 (by decide)
  ⟨h.1, h.2.1, h.2.2.1, h.2.2.2 (by decide) (by decide)⟩

/-! ## Word statistics -/

theorem wordWithStats_counts (st : Store) (w : Word) :
    (wordWithStats st w).word = w ∧
    (wordWithStats st w).stats.correctCount =
      (reviewsOfWord st w.id).countP (fun x => x.correct = true) ∧
    (wordWithStats st w).stats.wrongCount =
      (reviewsOfWord st w.id).countP (fun x => x.correct = false) ∧
    (wordWithStats st w).stats.correctCount + (wordWithStats st w).stats.wrongCount =
      (reviewsOfWord st w.id).length := by
  have hc : (wordWithStats st w).stats.correctCount =
      (reviewsOfWord st w.id).countP (fun x => x.correct = true) := by
    simp [wordWithStats, reviewsOfWord, List.countP_eq_length_filter, List.filter_filter,
      Bool.and_comm]
  have hw : (wordWithStats st w).stats.wrongCount =
      (reviewsOfWord st w.id).countP (fun x => x.correct = false) := by
    simp [wordWithStats, reviewsOfWord, List.countP_eq_length_filter, List.filter_filter,
      Bool.and_comm]
  refine ⟨rfl, hc, hw, ?_⟩
  rw [hc, hw, List.length_eq_countP_add_countP (fun x => decide (x.correct = true))]
  congr 1
  apply List.countP_congr
  intro x _
  cases x.correct <;> simp

theorem paginatedResponse_items {α : Type} (items : List α) (page perPage total : Int)
    (resp : PaginatedResponse α)
    (h : paginatedResponse items page perPage total = Outcome.ok resp) : resp.items = items := by
  unfold paginatedResponse at h
  split at h
  · cases h
  · injection h with h
    rw [← h]

theorem mem_of_mem_limitOffset {α : Type} (limit offset : Int) (rows : List α) (x : α)
    (h : x ∈ limitOffset limit offset rows) : x ∈ rows := by
  unfold limitOffset at h
  split at h
  · exact List.mem_of_mem_drop h
  · exact List.mem_of_mem_drop (List.mem_of_mem_take h)

theorem mem_of_mem_Execute {α : Type} (q : QueryBuilder) (rows : List α) (x : α)
    (h : x ∈ q.Execute rows) : x ∈ rows := by
  unfold QueryBuilder.Execute at h
  split at h
  · exact mem_of_mem_limitOffset _ _ _ _ h
  · exact h

/-- Claim C13: for every stored word, `GetWordByID` returns it with
`correct_count` and `wrong_count` equal to the numbers of that word's reviews
with `correct = true` and `correct = false`, and their sum is the number of
that word's reviews; every item that `GetWords` returns on any page is a stored
word with the same three properties. -/
theorem wordStats_count_reviews (st : Store) :
    (∀ w ∈ st.words, ∃ r, GetWordByID st w.id = Outcome.ok r ∧ r.word.id = w.id ∧
      r.stats.correctCount = (reviewsOfWord st w.id).countP (fun x => x.correct = true) ∧
      r.stats.wrongCount = (reviewsOfWord st w.id).countP (fun x => x.correct = false) ∧
      r.stats.correctCount + r.stats.wrongCount = (reviewsOfWord st w.id).length) ∧
    (∀ (page perPage : Int) (resp : PaginatedResponse WordWithStats),
      GetWords st page perPage = Outcome.ok resp → ∀ item ∈ resp.items,
        item.word ∈ st.words ∧
        item.stats.correctCount =
          (reviewsOfWord st item.word.id).countP (fun x => x.correct = true) ∧
        item.stats.wrongCount =
          (reviewsOfWord st item.word.id).countP (fun x => x.correct = false) ∧
        item.stats.correctCount + item.stats.wrongCount =
          (reviewsOfWord st item.word.id).length) := by
  constructor
  · intro w hw
    have hmem : w ∈ st.words.filter fun x => x.id == w.id := by
      simp [List.mem_filter, hw]
    unfold GetWordByID QueryBuilder.Execute
    simp only [QueryBuilder.Where, QueryBuilder.New, gt_iff_lt, lt_self_iff_false, if_false]
    cases hf : st.words.filter fun x => x.id == w.id with
    | nil =>
      rw [hf] at hmem
      cases hmem
    | cons v rest =>
      have hv : v ∈ st.words.filter fun x => x.id == w.id := by
        rw [hf]
        exact List.mem_cons_self v rest
      have hid : v.id = w.id := by
        simpa using (List.mem_filter.mp hv).2
      obtain ⟨h0, h1, h2, h3⟩ := wordWithStats_counts st v
      refine ⟨wordWithStats st v, rfl, ?_, ?_, ?_, ?_⟩
      · rw [h0, hid]
      · rw [h1, hid]
      · rw [h2, hid]
      · rw [h3, hid]
  · intro page perPage resp hresp item hitem
    have hitems := paginatedResponse_items _ _ _ _ _ hresp
    rw [hitems] at hitem
    have hrow := mem_of_mem_Execute _ _ _ hitem
    obtain ⟨w, hw, hwi⟩ := List.mem_map.mp hrow
    have hw' : w ∈ st.words := (List.perm_insertionSort _ _).subset hw
    obtain ⟨h0, h1, h2, h3⟩ := wordWithStats_counts st w
    subst hwi
    rw [h0]
    exact ⟨hw', h1, h2, h3⟩

/-- Witness for `wordStats_count_reviews`: word 1 of `threeWordStore` (one
correct review), by `GetWordByID` and on page 1 of `GetWords`. -/
theorem wordStats_count_reviews_witness :
    (∃ r, GetWordByID threeWordStore 1 = Outcome.ok r ∧ r.word.id = 1 ∧
      r.stats.correctCount =
        (reviewsOfWord threeWordStore 1).countP (fun x => x.correct = true) ∧
      r.stats.wrongCount =
        (reviewsOfWord threeWordStore 1).countP (fun x => x.correct = false) ∧
      r.stats.correctCount + r.stats.wrongCount = (reviewsOfWord threeWordStore 1).length) ∧
    ((⟨⟨1, "一", "one", "[]", 1727000000⟩, ⟨1, 0⟩⟩ : WordWithStats).word ∈ threeWordStore.words ∧
      (⟨⟨1, "一", "one", "[]", 1727000000⟩, ⟨1, 0⟩⟩ : WordWithStats).stats.correctCount =
        (reviewsOfWord threeWordStore 1).countP (fun x => x.correct = true) ∧
      (⟨⟨1, "一", "one", "[]", 1727000000⟩, ⟨1, 0⟩⟩ : WordWithStats).stats.wrongCount =
        (reviewsOfWord threeWordStore 1).countP (fun x => x.correct = false) ∧
      (⟨⟨1, "一", "one", "[]", 1727000000⟩, ⟨1, 0⟩⟩ : WordWithStats).stats.correctCount +
          (⟨⟨1, "一", "one", "[]", 1727000000⟩, ⟨1, 0⟩⟩ : WordWithStats).stats.wrongCount =
        (reviewsOfWord threeWordStore 1).length) :=
  ⟨(wordStats_count_reviews threeWordStore).1 ⟨1, "一", "one", "[]", 1727000000⟩ (by decide),
   (wordStats_count_reviews threeWordStore).2 1 10
     ⟨[⟨⟨1, "一", "one", "[]", 1727000000⟩, ⟨1, 0⟩⟩, ⟨⟨2, "二", "two", "[]", 1727000000⟩, ⟨0, 1⟩⟩,
       ⟨⟨3, "三", "three", "[]", 1727000000⟩, ⟨0, 0⟩⟩], ⟨1, 1, 3, 10⟩⟩
     (by decide) ⟨⟨1, "一", "one", "[]", 1727000000⟩, ⟨1, 0⟩⟩ (by decide)⟩

/-! ## Rounding to float64 -/

theorem roundHalfEven_le (y : ℚ) (k : Int) (h : y ≤ k) : roundHalfEven y ≤ k := by
  have hf : ⌊y⌋ ≤ k := by
    have := Int.floor_mono h
    simpa using this
  unfold roundHalfEven
  rcases lt_or_eq_of_le hf with hlt | heq
  · split
    · exact hf
    · split
      · omega
      · split <;> omega
  · have hy : y = k := le_antisymm h (by rw [← heq]; exact Int.floor_le y)
    have : y - ⌊y⌋ < 1 / 2 := by
      rw [hy, Int.floor_intCast]; norm_num
    rw [if_pos this]
    exact hf

theorem le_roundHalfEven (y : ℚ) (k : Int) (h : (k : ℚ) ≤ y) : k ≤ roundHalfEven y := by
  have hf : k ≤ ⌊y⌋ := Int.le_floor.mpr h
  unfold roundHalfEven
  split
  · exact hf
  · split
    · omega
    · split <;> omega

theorem abs_roundHalfEven_sub_le (y : ℚ) : |(roundHalfEven y : ℚ) - y| ≤ 1 / 2 := by
  have h1 := Int.floor_le y
  have h2 := Int.lt_floor_add_one y
  unfold roundHalfEven
  rw [abs_le]
  split
  · constructor <;> linarith
  · split
    · push_cast
      constructor <;> linarith
    · split
      · constructor <;> linarith
      · push_cast
        constructor <;> linarith

/-- Below `2 ^ 53` the float64 grid contains every integer: the exponent of the
unit in the last place is not positive. -/
theorem ulpExponent_nonpos (x : ℚ) (h : |x| < 2 ^ 53) : ulpExponent x ≤ 0 := by
  unfold ulpExponent
  by_cases hx : |x| = 0
  · rw [hx, Int.log_zero_right]
    decide
  · have hpos : 0 < |x| := lt_of_le_of_ne (abs_nonneg x) (Ne.symm hx)
    have hlog : Int.log 2 |x| < 53 := by
      apply (Int.lt_zpow_iff_log_lt (by norm_num) hpos).mp
      exact_mod_cast h
    omega

/-- Rounding to float64 never crosses an integer, for `|x| < 2 ^ 53`: an
integer that is an upper bound of `x` is an upper bound of its float64. -/
theorem roundFloat64_le_int (x : ℚ) (g : Int) (hx : |x| < 2 ^ 53) (h : x ≤ g) :
    roundFloat64 x ≤ g := by
  have hE := ulpExponent_nonpos x hx
  obtain ⟨k, hk⟩ : ∃ k : Nat, ulpExponent x = -(k : Int) := ⟨(-ulpExponent x).toNat, by omega⟩
  have hpow : (2 : ℚ) ^ ulpExponent x = ((2 : ℚ) ^ k)⁻¹ := by
    rw [hk, zpow_neg, zpow_natCast]
  have hpos : (0 : ℚ) < (2 : ℚ) ^ k := by positivity
  unfold roundFloat64
  rw [hpow, div_inv_eq_mul]
  have hle : x * 2 ^ k ≤ ((g * 2 ^ k : Int) : ℚ) := by
    push_cast
    exact mul_le_mul_of_nonneg_right h hpos.le
  have hr := roundHalfEven_le _ _ hle
  have hr' : (roundHalfEven (x * 2 ^ k) : ℚ) ≤ (g : ℚ) * 2 ^ k := by exact_mod_cast hr
  calc (roundHalfEven (x * 2 ^ k) : ℚ) * ((2 : ℚ) ^ k)⁻¹
      ≤ (g : ℚ) * 2 ^ k * ((2 : ℚ) ^ k)⁻¹ :=
        mul_le_mul_of_nonneg_right hr' (inv_nonneg.mpr hpos.le)
    _ = g := by field_simp

/-- Rounding to float64 never crosses an integer, for `|x| < 2 ^ 53`: an
integer that is a lower bound of `x` is a lower bound of its float64. -/
theorem int_le_roundFloat64 (x : ℚ) (g : Int) (hx : |x| < 2 ^ 53) (h : (g : ℚ) ≤ x) :
    (g : ℚ) ≤ roundFloat64 x := by
  have hE := ulpExponent_nonpos x hx
  obtain ⟨k, hk⟩ : ∃ k : Nat, ulpExponent x = -(k : Int) := ⟨(-ulpExponent x).toNat, by omega⟩
  have hpow : (2 : ℚ) ^ ulpExponent x = ((2 : ℚ) ^ k)⁻¹ := by
    rw [hk, zpow_neg, zpow_natCast]
  have hpos : (0 : ℚ) < (2 : ℚ) ^ k := by positivity
  unfold roundFloat64
  rw [hpow, div_inv_eq_mul]
  have hle : ((g * 2 ^ k : Int) : ℚ) ≤ x * 2 ^ k := by
    push_cast
    exact mul_le_mul_of_nonneg_right h hpos.le
  have hr := le_roundHalfEven _ _ hle
  have hr' : (g : ℚ) * 2 ^ k ≤ (roundHalfEven (x * 2 ^ k) : ℚ) := by exact_mod_cast hr
  calc (g : ℚ) = (g : ℚ) * 2 ^ k * ((2 : ℚ) ^ k)⁻¹ := by field_simp
    _ ≤ (roundHalfEven (x * 2 ^ k) : ℚ) * ((2 : ℚ) ^ k)⁻¹ :=
        mul_le_mul_of_nonneg_right hr' (inv_nonneg.mpr hpos.le)

/-- The relative error of one float64 rounding in the normal range is at most
`2 ^ (-53)`. -/
theorem abs_roundFloat64_sub_le (x : ℚ) (hx : (2 : ℚ) ^ (-1022 : Int) ≤ x) :
    |roundFloat64 x - x| ≤ x / 2 ^ 53 := by
  have hpos : 0 < x := lt_of_lt_of_le (by positivity) hx
  have habs : |x| = x := abs_of_pos hpos
  have hlog : (-1022 : Int) ≤ Int.log 2 x := by
    apply (Int.zpow_le_iff_le_log (by norm_num) hpos).mp
    exact_mod_cast hx
  have hE : ulpExponent x = Int.log 2 x - 52 := by
    unfold ulpExponent
    rw [habs]
    omega
  have hlow : (2 : ℚ) ^ Int.log 2 x ≤ x := by
    have := Int.zpow_log_le_self (by norm_num : 1 < 2) hpos
    exact_mod_cast this
  have hEpos : (0 : ℚ) < 2 ^ ulpExponent x := by positivity
  have hsplit : roundFloat64 x - x =
      ((roundHalfEven (x / 2 ^ ulpExponent x) : ℚ) - x / 2 ^ ulpExponent x) *
        2 ^ ulpExponent x := by
    unfold roundFloat64
    field_simp
  have hhalf := abs_roundHalfEven_sub_le (x / 2 ^ ulpExponent x)
  have hulp : (2 : ℚ) ^ ulpExponent x = 2 ^ Int.log 2 x / 2 ^ 52 := by
    rw [hE, zpow_sub₀ (by norm_num : (2 : ℚ) ≠ 0)]
    norm_num
  rw [hsplit, abs_mul, abs_of_pos hEpos]
  calc |(roundHalfEven (x / 2 ^ ulpExponent x) : ℚ) - x / 2 ^ ulpExponent x| *
        2 ^ ulpExponent x
      ≤ 1 / 2 * 2 ^ ulpExponent x := mul_le_mul_of_nonneg_right hhalf hEpos.le
    _ = 2 ^ Int.log 2 x / 2 ^ 53 := by rw [hulp]; ring
    _ ≤ x / 2 ^ 53 := by
        apply div_le_div_of_nonneg_right hlow
        positivity

/-- Both float64 roundings of a rate keep it between 0 and 100, and leave the
rates 0 and 100 exact. -/
theorem roundedRate_range (c n : Nat) (hn : n ≠ 0) (hc : c ≤ n) :
    0 ≤ roundFloat64 (roundFloat64 ((c : ℚ) / (n : ℚ)) * 100) ∧
    roundFloat64 (roundFloat64 ((c : ℚ) / (n : ℚ)) * 100) ≤ 100 ∧
    (c = 0 → roundFloat64 (roundFloat64 ((c : ℚ) / (n : ℚ)) * 100) = 0) ∧
    (c = n → roundFloat64 (roundFloat64 ((c : ℚ) / (n : ℚ)) * 100) = 100) := by
  have hnpos : (0 : ℚ) < (n : ℚ) := by exact_mod_cast Nat.pos_of_ne_zero hn
  have hr0 : (0 : ℚ) ≤ (c : ℚ) / (n : ℚ) := by positivity
  have hr1 : (c : ℚ) / (n : ℚ) ≤ 1 := by
    rw [div_le_one hnpos]
    exact_mod_cast hc
  have hrabs : |(c : ℚ) / (n : ℚ)| < 2 ^ 53 := by
    rw [abs_of_nonneg hr0]
    exact lt_of_le_of_lt hr1 (by norm_num)
  have ha0 : (0 : ℚ) ≤ roundFloat64 ((c : ℚ) / (n : ℚ)) := by
    have := int_le_roundFloat64 _ 0 hrabs (by simpa using hr0)
    simpa using this
  have ha1 : roundFloat64 ((c : ℚ) / (n : ℚ)) ≤ 1 := by
    have := roundFloat64_le_int _ 1 hrabs (by simpa using hr1)
    simpa using this
  have hy0 : (0 : ℚ) ≤ roundFloat64 ((c : ℚ) / (n : ℚ)) * 100 := by positivity
  have hy1 : roundFloat64 ((c : ℚ) / (n : ℚ)) * 100 ≤ 100 := by linarith
  have hyabs : |roundFloat64 ((c : ℚ) / (n : ℚ)) * 100| < 2 ^ 53 := by
    rw [abs_of_nonneg hy0]
    exact lt_of_le_of_lt hy1 (by norm_num)
  have hlow : (0 : ℚ) ≤ roundFloat64 (roundFloat64 ((c : ℚ) / (n : ℚ)) * 100) := by
    have := int_le_roundFloat64 _ 0 hyabs (by simpa using hy0)
    simpa using this
  have hhigh : roundFloat64 (roundFloat64 ((c : ℚ) / (n : ℚ)) * 100) ≤ 100 := by
    have := roundFloat64_le_int _ 100 hyabs (by simpa using hy1)
    simpa using this
  refine ⟨hlow, hhigh, ?_, ?_⟩
  · intro hc0
    have hr : (c : ℚ) / (n : ℚ) ≤ 0 := by rw [hc0]; simp
    have ha : roundFloat64 ((c : ℚ) / (n : ℚ)) ≤ 0 := by
      have := roundFloat64_le_int _ 0 hrabs (by simpa using hr)
      simpa using this
    have hy : roundFloat64 ((c : ℚ) / (n : ℚ)) * 100 ≤ 0 := by linarith
    have := roundFloat64_le_int _ 0 hyabs (by simpa using hy)
    have h0 : roundFloat64 (roundFloat64 ((c : ℚ) / (n : ℚ)) * 100) ≤ 0 := by simpa using this
    exact le_antisymm h0 hlow
  · intro hcn
    have hr : (1 : ℚ) ≤ (c : ℚ) / (n : ℚ) := by
      rw [hcn, div_self hnpos.ne']
    have ha : (1 : ℚ) ≤ roundFloat64 ((c : ℚ) / (n : ℚ)) := by
      have := int_le_roundFloat64 _ 1 hrabs (by simpa using hr)
      simpa using this
    have hy : (100 : ℚ) ≤ roundFloat64 ((c : ℚ) / (n : ℚ)) * 100 := by linarith
    have := int_le_roundFloat64 _ 100 hyabs (by simpa using hy)
    have h100 : (100 : ℚ) ≤ roundFloat64 (roundFloat64 ((c : ℚ) / (n : ℚ)) * 100) := by
      simpa using this
    exact le_antisymm hhigh h100

/-- The two float64 roundings move a rate by a relative error of at most
`2 ^ (-52) + 2 ^ (-106)`. -/
theorem roundedRate_error (c n : Nat) (hc : c ≠ 0) (hn : n < 2 ^ 53) :
    |roundFloat64 (roundFloat64 ((c : ℚ) / (n : ℚ)) * 100) - 100 * (c : ℚ) / (n : ℚ)| ≤
      (1 / 2 ^ 52 + 1 / 2 ^ 106) * (100 * (c : ℚ) / (n : ℚ)) := by
  by_cases hn0 : n = 0
  · subst hn0
    have h0 : roundFloat64 0 = 0 := by
      have h1 := roundFloat64_le_int 0 0 (by norm_num) (by norm_num)
      have h2 := int_le_roundFloat64 0 0 (by norm_num) (by norm_num)
      exact le_antisymm (by simpa using h1) (by simpa using h2)
    simp [h0]
  have hnpos : (0 : ℚ) < (n : ℚ) := by exact_mod_cast Nat.pos_of_ne_zero hn0
  have hcpos : (1 : ℚ) ≤ (c : ℚ) := by exact_mod_cast Nat.pos_of_ne_zero hc
  have hnlt : (n : ℚ) < 2 ^ 53 := by exact_mod_cast hn
  have hsmall : (1 : ℚ) / 2 ^ 53 ≤ (c : ℚ) / (n : ℚ) := by
    rw [div_le_div_iff₀ (by positivity) hnpos]
    nlinarith
  have htiny : (2 : ℚ) ^ (-1022 : Int) ≤ 1 / 2 ^ 54 := by
    have h1 : (2 : ℚ) ^ (-1022 : Int) ≤ 2 ^ (-54 : Int) :=
      zpow_le_zpow_right₀ (by norm_num) (by decide)
    have h2 : (2 : ℚ) ^ (-54 : Int) = 1 / 2 ^ 54 := by
      rw [zpow_neg, one_div]
      norm_cast
    rw [← h2]
    exact h1
  have hr := abs_roundFloat64_sub_le ((c : ℚ) / (n : ℚ))
    (le_trans htiny (le_trans (by norm_num) hsmall))
  rw [abs_le] at hr
  have hrpos : (0 : ℚ) < (c : ℚ) / (n : ℚ) := lt_of_lt_of_le (by positivity) hsmall
  have hy := abs_roundFloat64_sub_le (roundFloat64 ((c : ℚ) / (n : ℚ)) * 100) (by
    have : (1 : ℚ) / 2 ^ 54 ≤ roundFloat64 ((c : ℚ) / (n : ℚ)) * 100 := by
      have h1 : (c : ℚ) / (n : ℚ) / 2 ^ 53 ≤ (c : ℚ) / (n : ℚ) / 2 := by
        apply div_le_div_of_nonneg_left hrpos.le (by norm_num) (by norm_num)
      have h2 : (1 : ℚ) / 2 ^ 53 / 2 ≤ (c : ℚ) / (n : ℚ) / 2 := by linarith
      have h3 : (1 : ℚ) / 2 ^ 54 = 1 / 2 ^ 53 / 2 := by norm_num
      linarith [hr.1]
    exact le_trans htiny this)
  rw [abs_le] at hy
  have he : (c : ℚ) / (n : ℚ) / 2 ^ 53 = (c : ℚ) / (n : ℚ) * (1 / 2 ^ 53) := by ring
  have hu : (0 : ℚ) < 1 / 2 ^ 53 := by positivity
  have hquad : (1 / 2 ^ 52 + 1 / 2 ^ 106 : ℚ) = 2 * (1 / 2 ^ 53) + (1 / 2 ^ 53) * (1 / 2 ^ 53) := by
    norm_num
  have hmul : 100 * (c : ℚ) / (n : ℚ) = 100 * ((c : ℚ) / (n : ℚ)) := by ring
  rw [hmul, hquad, abs_le]
  generalize (c : ℚ) / (n : ℚ) = r at *
  generalize roundFloat64 r = a at *
  generalize roundFloat64 (a * 100) = z at *
  rw [he] at hr
  have he2 : a * 100 / 2 ^ 53 = a * 100 * (1 / 2 ^ 53) := by ring
  rw [he2] at hy
  generalize (1 : ℚ) / 2 ^ 53 = u at *
  have ha : a ≤ r * (1 + u) := by linarith [hr.2]
  have hau : a * u ≤ r * (1 + u) * u := mul_le_mul_of_nonneg_right ha hu.le
  constructor <;> nlinarith [hr.1, hr.2, hy.1, hy.2, hau]

/-! ## Quick stats and study progress -/

/-- Claim C14, refuted as stated: with 7 correct reviews out of 25,
`100 * 7 / 25` is 28, and `GetQuickStats` returns the `success_rate`
`28 + 2 ^ (-48)`, the float64 printed as `28.000000000000004`: the query
rounds the mean `7 / 25` to a float64 and rounds its product with `100.0`
again. -/
theorem quickStats_successRate_rounds :
    (roundingStore.wordReviewItems.countP fun r => r.correct = true) = 7 ∧
    roundingStore.wordReviewItems.length = 25 ∧
    (100 * ((7 : Nat) : ℚ) / ((25 : Nat) : ℚ) = 28) ∧
    roundFloat64 (7 / 25) = 5044031582654956 / 2 ^ 54 ∧
    GetQuickStats roundingStore 1728030000 =
      Outcome.ok
        { successRate := 28 + 1 / 2 ^ 48
          totalStudySessions := 1
          totalActiveGroups := 1
          studyStreakDays := 1 } := by
  refine ⟨by decide, by decide, by norm_num, by decide!, by decide!⟩

/-- Claim C14, amended: for every review history of fewer than `2 ^ 53`
reviews `GetQuickStats` returns.  With at least one review its `success_rate`
is the float64 `fl(fl(c / n) * 100)`, for `c` correct reviews out of `n`: it
differs from `100 * c / n` by at most the relative error `2 ^ (-52) + 2 ^ (-106)`
of the two roundings, and equals it when no review or every review is correct.
Without reviews it is 0, and in every case it lies between 0 and 100. -/
theorem quickStats_successRate (st : Store) (now : Nat)
    (hrows : st.wordReviewItems.length < 2 ^ 53) :
    ∃ q, GetQuickStats st now = Outcome.ok q ∧
      (st.wordReviewItems ≠ [] →
        q.successRate =
          roundFloat64 (roundFloat64
            (((st.wordReviewItems.countP fun r => r.correct = true : Nat) : ℚ) /
              (st.wordReviewItems.length : ℚ)) * 100) ∧
        |q.successRate -
            100 * ((st.wordReviewItems.countP fun r => r.correct = true : Nat) : ℚ) /
              (st.wordReviewItems.length : ℚ)| ≤
          (1 / 2 ^ 52 + 1 / 2 ^ 106) *
            (100 * ((st.wordReviewItems.countP fun r => r.correct = true : Nat) : ℚ) /
              (st.wordReviewItems.length : ℚ)) ∧
        ((st.wordReviewItems.countP fun r => r.correct = true) = 0 → q.successRate = 0) ∧
        ((st.wordReviewItems.countP fun r => r.correct = true) = st.wordReviewItems.length →
          q.successRate = 100)) ∧
      (st.wordReviewItems = [] → q.successRate = 0) ∧
      0 ≤ q.successRate ∧ q.successRate ≤ 100 := by
  have hcount : (st.wordReviewItems.countP fun r => r.correct) =
      st.wordReviewItems.countP fun r => decide (r.correct = true) := by
    apply List.countP_congr
    intro x _
    simp
  have hle : (st.wordReviewItems.countP fun r => decide (r.correct = true)) ≤
      st.wordReviewItems.length := List.countP_le_length _
  by_cases hnil : st.wordReviewItems = []
  · have hzero : quickSuccessRate st.wordReviewItems = 0 := by
      rw [hnil]
      simp [quickSuccessRate, sqlAvgFloat64, coalesceZero]
    refine ⟨_, rfl, fun hne => absurd hnil hne, fun _ => hzero, ?_, ?_⟩
    · show 0 ≤ quickSuccessRate st.wordReviewItems
      rw [hzero]
    · show quickSuccessRate st.wordReviewItems ≤ 100
      rw [hzero]
      norm_num
  · have hlen : st.wordReviewItems.length ≠ 0 := fun h => hnil (List.length_eq_zero.mp h)
    have hrate : quickSuccessRate st.wordReviewItems =
        roundFloat64 (roundFloat64
          (((st.wordReviewItems.countP fun r => r.correct = true : Nat) : ℚ) /
            (st.wordReviewItems.length : ℚ)) * 100) := by
      simp only [quickSuccessRate, sqlAvgFloat64, if_neg hlen, Option.map_some', coalesceZero,
        Option.getD_some, hcount]
    obtain ⟨h0, h100, hnone, hall⟩ := roundedRate_range _ _ hlen hle
    refine ⟨_, rfl, fun _ => ⟨hrate, ?_, ?_, ?_⟩, fun h => absurd h hnil, ?_, ?_⟩
    · show |quickSuccessRate st.wordReviewItems - _| ≤ _
      rw [hrate]
      by_cases hc : (st.wordReviewItems.countP fun r => decide (r.correct = true)) = 0
      · rw [hnone hc, hc]
        simp
      · exact roundedRate_error _ _ hc hrows
    · intro hc
      show quickSuccessRate st.wordReviewItems = 0
      rw [hrate]
      exact hnone hc
    · intro hc
      show quickSuccessRate st.wordReviewItems = 100
      rw [hrate]
      exact hall hc
    · show 0 ≤ quickSuccessRate st.wordReviewItems
      rw [hrate]
      exact h0
    · show quickSuccessRate st.wordReviewItems ≤ 100
      rw [hrate]
      exact h100

/-- Witness for `quickStats_successRate`: `roundingStore` (7 correct reviews out
of 25) and `emptyStore` (no review). -/
theorem quickStats_successRate_witness :
    (∃ q, GetQuickStats roundingStore 1728030000 = Outcome.ok q ∧
      q.successRate =
        roundFloat64 (roundFloat64
          (((roundingStore.wordReviewItems.countP fun r => r.correct = true : Nat) : ℚ) /
            (roundingStore.wordReviewItems.length : ℚ)) * 100) ∧
      |q.successRate -
          100 * ((roundingStore.wordReviewItems.countP fun r => r.correct = true : Nat) : ℚ) /
            (roundingStore.wordReviewItems.length : ℚ)| ≤
        (1 / 2 ^ 52 + 1 / 2 ^ 106) *
          (100 * ((roundingStore.wordReviewItems.countP fun r => r.correct = true : Nat) : ℚ) /
            (roundingStore.wordReviewItems.length : ℚ)) ∧
      0 ≤ q.successRate ∧ q.successRate ≤ 100) ∧
    (∃ q, GetQuickStats emptyStore 1728030000 = Outcome.ok q ∧ q.successRate = 0) :=
  ⟨match quickStats_successRate roundingStore 1728030000 (by decide) with
    | ⟨q, hq, hrate, _, h0, h100⟩ =>
      ⟨q, hq, (hrate (by decide)).1, (hrate (by decide)).2.1, h0, h100⟩,
   match quickStats_successRate emptyStore 1728030000 (by decide) with
    | ⟨q, hq, _, hzero, _, _⟩ => ⟨q, hq, hzero rfl⟩⟩

/-- Claim C16: `GetStudyProgress` always returns; `total_words_studied` is the
number of distinct word ids occurring in `word_review_items` (the ids that have
at least one review), `total_available_words` is the number of words, and
without reviews `total_words_studied` is 0. -/
theorem studyProgress_counts (st : Store) :
    ∃ p, GetStudyProgress st = Outcome.ok p ∧
      p.totalWordsStudied = ((st.wordReviewItems.map fun r => r.wordId).toFinset).card ∧
      (∀ id, id ∈ (st.wordReviewItems.map fun r => r.wordId).toFinset ↔
        ∃ r ∈ st.wordReviewItems, r.wordId = id) ∧
      p.totalAvailableWords = st.words.length ∧
      (st.wordReviewItems = [] → p.totalWordsStudied = 0) := by
  refine ⟨_, rfl, ?_, ?_, rfl, ?_⟩
  · exact (List.card_toFinset _).symm
  · intro id
    simp [List.mem_toFinset, List.mem_map]
  · intro h
    show ((st.wordReviewItems.map fun r => r.wordId).dedup).length = 0
    rw [h]
    rfl

/-- Witness for `studyProgress_counts`: the store without rows. -/
theorem studyProgress_counts_witness :
    ∃ p, GetStudyProgress emptyStore = Outcome.ok p ∧ p.totalWordsStudied = 0 ∧
      p.totalAvailableWords = emptyStore.words.length :=
  match studyProgress_counts emptyStore with
  | ⟨p, hp, _, _, hwords, hzero⟩ => ⟨p, hp, hzero rfl, hwords⟩

/-- Claim C18: when there are no study sessions, `GetQuickStats` succeeds and
`study_streak_days` is 0. -/
theorem quickStats_streak_no_sessions (st : Store) (now : Nat) (h : st.studySessions = []) :
    ∃ q, GetQuickStats st now = Outcome.ok q ∧ q.studyStreakDays = 0 := by
  refine ⟨_, rfl, ?_⟩
  show streakDays st.studySessions = 0
  rw [h]
  rfl

/-- Witness for `quickStats_streak_no_sessions`: the store without rows. -/
theorem quickStats_streak_no_sessions_witness :
    ∃ q, GetQuickStats emptyStore 1728030000 = Outcome.ok q ∧ q.studyStreakDays = 0 :=
  quickStats_streak_no_sessions emptyStore 1728030000 rfl

/-! ## The activity catalog -/

/-- Claim C20: `GetStudyActivityDetails(id)` returns `sql.ErrNoRows` (the
NotFound outcome) exactly when `id` is not a key of the static catalog, whose
only key is 1; for a key it returns the entry of the catalog with `ID` set to
`id`, and for 1 that is the name `Vocabulary Quiz` with its thumbnail and
description. -/
theorem GetStudyActivityDetails_catalog (id : Int) :
    (GetStudyActivityDetails id = Outcome.error GoError.errNoRows ↔
      id ∉ activityCatalog.map Prod.fst) ∧
    isNotFound GoError.errNoRows = true ∧
    activityCatalog.map Prod.fst = [1] ∧
    (∀ entry, (id, entry) ∈ activityCatalog →
      GetStudyActivityDetails id =
        Outcome.ok
          { id := id
            studySessionId := entry.studySessionId
            groupId := entry.groupId
            name := entry.name
            thumbnailURL := entry.thumbnailURL
            description := entry.description }) ∧
    GetStudyActivityDetails 1 =
      Outcome.ok
        { id := 1
          studySessionId := 0
          groupId := 0
          name := "Vocabulary Quiz"
          thumbnailURL := "https://example.com/thumbnail.jpg"
          description := "Practice your vocabulary with flashcards" } := by
  refine ⟨?_, rfl, rfl, ?_, rfl⟩
  · by_cases h : id = 1
    · subst h
      simp [GetStudyActivityDetails, activityCatalog, List.lookup]
    · have hb : (id == 1) = false := by simpa using h
      simp [GetStudyActivityDetails, activityCatalog, List.lookup, h, hb]
  · intro entry hentry
    simp only [activityCatalog, List.mem_singleton, Prod.mk.injEq] at hentry
    obtain ⟨hid, he⟩ := hentry
    subst hid
    subst he
    rfl

/-- Witness for `GetStudyActivityDetails_catalog`: the entry under key 1. -/
theorem GetStudyActivityDetails_catalog_witness :
    GetStudyActivityDetails 1 =
      Outcome.ok
        { id := 1
          studySessionId := 0
          groupId := 0
          name := "Vocabulary Quiz"
          thumbnailURL := "https://example.com/thumbnail.jpg"
          description := "Practice your vocabulary with flashcards" } :=
  (GetStudyActivityDetails_catalog 1).2.2.2.1
    ⟨0, 0, 0, "Vocabulary Quiz", "https://example.com/thumbnail.jpg",
      "Practice your vocabulary with flashcards"⟩ (by decide)

/-! ## Recording reviews twice -/

theorem RecordWordReview_of_allowed (st : Store) (now : Nat) (sessionID wordID : Int)
    (correct : Bool) (h : reviewInsertAllowed st sessionID wordID = true) :
    RecordWordReview st now sessionID wordID correct =
      (Outcome.ok ⟨nextId (st.wordReviewItems.map fun r => r.id), now, wordID, sessionID, correct⟩,
       { st with
         wordReviewItems := st.wordReviewItems ++
           [⟨nextId (st.wordReviewItems.map fun r => r.id), now, wordID, sessionID, correct⟩] }) := by
  simp [RecordWordReview, h]

theorem allowed_of_RecordWordReview_ok (st : Store) (now : Nat) (sessionID wordID : Int)
    (correct : Bool) (r : WordReviewItem)
    (h : (RecordWordReview st now sessionID wordID correct).1 = Outcome.ok r) :
    reviewInsertAllowed st sessionID wordID = true := by
  by_cases ha : reviewInsertAllowed st sessionID wordID = true
  · exact ha
  · simp [RecordWordReview, ha] at h

/-- Claim C19: two successful calls of `RecordWordReview` with the same
`(session_id, word_id)` leave the store with exactly two more review rows,
appended after the rows stored before (which are unchanged, like every other
table); each new row is the review its call returned and carries the
`word_id`, `session_id`, `correct` value and clock of that call, and the two
rows have different ids, both new; for an existing session and an existing
word both calls do succeed, whatever the two outcomes. -/
theorem RecordWordReview_twice_appends (st : Store) (now1 now2 : Nat)
    (sessionID wordID : Int) (c1 c2 : Bool) :
    (∀ r1 r2,
      (RecordWordReview st now1 sessionID wordID c1).1 = Outcome.ok r1 →
      (RecordWordReview (RecordWordReview st now1 sessionID wordID c1).2 now2
        sessionID wordID c2).1 = Outcome.ok r2 →
      (RecordWordReview (RecordWordReview st now1 sessionID wordID c1).2 now2
          sessionID wordID c2).2 =
        { st with wordReviewItems := st.wordReviewItems ++ [r1, r2] } ∧
      r1.wordId = wordID ∧ r1.studySessionId = sessionID ∧ r1.correct = c1 ∧
      r1.createdAt = now1 ∧
      r2.wordId = wordID ∧ r2.studySessionId = sessionID ∧ r2.correct = c2 ∧
      r2.createdAt = now2 ∧
      r1.id ≠ r2.id ∧ ∀ r ∈ st.wordReviewItems, r.id ≠ r1.id ∧ r.id ≠ r2.id) ∧
    ((∃ s ∈ st.studySessions, s.id = sessionID) → (∃ w ∈ st.words, w.id = wordID) →
      ∃ r1 r2,
        (RecordWordReview st now1 sessionID wordID c1).1 = Outcome.ok r1 ∧
        (RecordWordReview (RecordWordReview st now1 sessionID wordID c1).2 now2
          sessionID wordID c2).1 = Outcome.ok r2) := by
  have hsecond : ∀ (h : reviewInsertAllowed st sessionID wordID = true),
      reviewInsertAllowed (RecordWordReview st now1 sessionID wordID c1).2 sessionID wordID =
        true := by
    intro h
    rw [RecordWordReview_of_allowed st now1 sessionID wordID c1 h]
    exact h
  constructor
  · intro r1 r2 h1 h2
    have ha := allowed_of_RecordWordReview_ok _ _ _ _ _ _ h1
    have hb := hsecond ha
    rw [RecordWordReview_of_allowed _ now2 sessionID wordID c2 hb] at h2 ⊢
    rw [RecordWordReview_of_allowed st now1 sessionID wordID c1 ha] at h1 h2 ⊢
    simp only at h1 h2 ⊢
    injection h1 with h1
    injection h2 with h2
    subst h1
    subst h2
    have hlt1 : ∀ r ∈ st.wordReviewItems,
        r.id < nextId (st.wordReviewItems.map fun r => r.id) :=
      fun r hr => lt_nextId _ _ (List.mem_map_of_mem (fun r => r.id) hr)
    have hlt2 : ∀ r ∈ st.wordReviewItems ++
        [(⟨nextId (st.wordReviewItems.map fun r => r.id), now1, wordID, sessionID, c1⟩ :
          WordReviewItem)],
        r.id < nextId ((st.wordReviewItems ++
          [(⟨nextId (st.wordReviewItems.map fun r => r.id), now1, wordID, sessionID, c1⟩ :
            WordReviewItem)]).map fun r => r.id) :=
      fun r hr => lt_nextId _ _ (List.mem_map_of_mem (fun r => r.id) hr)
    refine ⟨by simp, rfl, rfl, rfl, rfl, rfl, rfl, rfl, rfl, ?_, ?_⟩
    · exact ne_of_lt (hlt2 _ (by simp))
    · intro r hr
      exact ⟨ne_of_lt (hlt1 r hr), ne_of_lt (hlt2 r (List.mem_append_left _ hr))⟩
  · rintro ⟨s, hs, hsid⟩ ⟨w, hw, hwid⟩
    have ha : reviewInsertAllowed st sessionID wordID = true := by
      have h1 : st.words.any (fun w => w.id == wordID) = true :=
        List.any_eq_true.mpr ⟨w, hw, by simp [hwid]⟩
      have h2 : st.studySessions.any (fun s => s.id == sessionID) = true :=
        List.any_eq_true.mpr ⟨s, hs, by simp [hsid]⟩
      simp [reviewInsertAllowed, h1, h2]
    have hb := hsecond ha
    exact ⟨_, _,
      congrArg Prod.fst (RecordWordReview_of_allowed st now1 sessionID wordID c1 ha),
      congrArg Prod.fst (RecordWordReview_of_allowed _ now2 sessionID wordID c2 hb)⟩

/-- Witness for `RecordWordReview_twice_appends`: word 1 is reviewed twice in
session 1 of `enforcedStore`, first correctly, then incorrectly. -/
theorem RecordWordReview_twice_appends_witness :
    (RecordWordReview (RecordWordReview enforcedStore 1728030000 1 1 true).2 1728030060
        1 1 false).2 =
      { enforcedStore with
        wordReviewItems := enforcedStore.wordReviewItems ++
          [⟨2, 1728030000, 1, 1, true⟩, ⟨3, 1728030060, 1, 1, false⟩] } ∧
    (∃ r1 r2,
      (RecordWordReview enforcedStore 1728030000 1 1 true).1 = Outcome.ok r1 ∧
      (RecordWordReview (RecordWordReview enforcedStore 1728030000 1 1 true).2 1728030060
        1 1 false).1 = Outcome.ok r2) :=
  ⟨((RecordWordReview_twice_appends enforcedStore 1728030000 1728030060 1 1 true false).1
      ⟨2, 1728030000, 1, 1, true⟩ ⟨3, 1728030060, 1, 1, false⟩ (by decide) (by decide)).1,
   (RecordWordReview_twice_appends enforcedStore 1728030000 1728030060 1 1 true false).2
     (by decide) (by decide)⟩

/-! ## The last study session -/

theorem length_dedup_le_dedup_of_subset {κ : Type} [DecidableEq κ] (a b : List κ) (h : a ⊆ b) :
    a.dedup.length ≤ b.dedup.length :=
  (List.subperm_of_subset (List.nodup_dedup a)
    (fun _ hx => List.mem_dedup.mpr (h (List.mem_dedup.mp hx)))).length_le

/-! ## Group statistics: the two word counts -/

theorem mem_leftJoin_snd {α β : Type} (l : α) (found : List β) (row : α × Option β)
    (h : row ∈ leftJoin l found) (b : β) (hb : row.2 = some b) : b ∈ found := by
  unfold leftJoin at h
  cases found with
  | nil =>
    simp at h
    rw [h] at hb
    cases hb
  | cons c rest =>
    simp only [List.mem_map] at h
    obtain ⟨r, hr, hrow⟩ := h
    rw [← hrow] at hb
    simp only [Option.some.injEq] at hb
    rw [← hb]
    exact hr

theorem mem_leftJoin_of_mem {α β : Type} (l : α) (found : List β) (b : β) (hb : b ∈ found) :
    (l, some b) ∈ leftJoin l found := by
  unfold leftJoin
  cases found with
  | nil => cases hb
  | cons c rest => exact List.mem_map.mpr ⟨b, hb, rfl⟩

theorem mem_groupStatsRows (st : Store) (id : Int) (row : Word × Option WordReviewItem) :
    row ∈ groupStatsRows st id ↔
      row.1 ∈ memberWords st id ∧
        row ∈ leftJoin row.1 (st.wordReviewItems.filter fun r => row.1.id == r.wordId) := by
  unfold groupStatsRows memberWords
  simp only [List.mem_flatMap, List.mem_filter, List.any_eq_true, Bool.and_eq_true, beq_iff_eq]
  constructor
  · rintro ⟨w, hw, wg, ⟨hwg, h1, h2⟩, hrow⟩
    have := mem_leftJoin_fst _ _ _ hrow
    rw [this]
    exact ⟨⟨hw, wg, hwg, h1.symm, h2⟩, hrow⟩
  · rintro ⟨⟨hw, wg, hwg, h1, h2⟩, hrow⟩
    exact ⟨row.1, hw, wg, ⟨hwg, h1.symm, h2⟩, hrow⟩

/-- The two word counts of the aggregate row of `GetGroupStats`, for every
group: `total_words` is the number of distinct ids of member words,
`studied_words` the number of distinct ids of member words with a review, and
`studied_words <= total_words`. -/
theorem groupStats_word_counts (st : Store) (id : Int) :
    groupTotalWords (groupStatsRows st id) =
      (((memberWords st id).map fun w => w.id).toFinset).card ∧
    groupStudiedWords (groupStatsRows st id) =
      ((((memberWords st id).filter (hasReview st)).map fun w => w.id).toFinset).card ∧
    groupStudiedWords (groupStatsRows st id) ≤ groupTotalWords (groupStatsRows st id) := by
  have htotal : groupTotalWords (groupStatsRows st id) =
      (((memberWords st id).map fun w => w.id).dedup).length := by
    unfold groupTotalWords
    apply length_dedup_congr
    intro x
    simp only [List.mem_map]
    constructor
    · rintro ⟨row, hrow, hx⟩
      exact ⟨row.1, ((mem_groupStatsRows st id row).mp hrow).1, hx⟩
    · rintro ⟨w, hw, hx⟩
      obtain ⟨row, hrow⟩ := exists_mem_leftJoin w
        (st.wordReviewItems.filter fun r => w.id == r.wordId)
      have h1 := mem_leftJoin_fst _ _ _ hrow
      refine ⟨row, (mem_groupStatsRows st id row).mpr ?_, by rw [h1]; exact hx⟩
      rw [h1]
      exact ⟨hw, hrow⟩
  have hstudied : groupStudiedWords (groupStatsRows st id) =
      ((((memberWords st id).filter (hasReview st)).map fun w => w.id).dedup).length := by
    unfold groupStudiedWords
    apply length_dedup_congr
    intro x
    simp only [List.mem_map, List.mem_filterMap, List.mem_filter, Option.map_eq_some']
    constructor
    · rintro ⟨row, hrow, r, hr, hx⟩
      obtain ⟨hmem, hjoin⟩ := (mem_groupStatsRows st id row).mp hrow
      have hrfound := mem_leftJoin_snd _ _ _ hjoin r hr
      have hrw : row.1.id = r.wordId := by simpa using (List.mem_filter.mp hrfound).2
      refine ⟨row.1, ⟨hmem, ?_⟩, hx⟩
      unfold hasReview
      exact List.any_eq_true.mpr ⟨r, (List.mem_filter.mp hrfound).1, by simp [hrw]⟩
    · rintro ⟨w, ⟨hw, hrev⟩, hx⟩
      unfold hasReview at hrev
      obtain ⟨r, hr, hrw⟩ := List.any_eq_true.mp hrev
      have hrw' : r.wordId = w.id := by simpa using hrw
      have hfound : r ∈ st.wordReviewItems.filter fun r => w.id == r.wordId := by
        simp [List.mem_filter, hr, hrw']
      exact ⟨(w, some r), (mem_groupStatsRows st id (w, some r)).mpr
        ⟨hw, mem_leftJoin_of_mem w _ r hfound⟩, r, rfl, hx⟩
  refine ⟨by rw [htotal, List.card_toFinset], by rw [hstudied, List.card_toFinset], ?_⟩
  rw [htotal, hstudied]
  apply length_dedup_le_dedup_of_subset
  intro x hx
  simp only [List.mem_map, List.mem_filter] at hx ⊢
  obtain ⟨w, ⟨hw, _⟩, hx⟩ := hx
  exact ⟨w, hw, hx⟩

/-- Claim C15, evaluated: group 1 of `unreviewedStore` has one member word and
no review; the aggregate row of the query holds `total_words = 1` and
`studied_words = 0`, but `GetGroupStats` does not return them: the `Scan` of
the `NULL` in `last_studied_at` fails and the call returns an error. -/
theorem groupStats_counts_not_returned_without_reviews :
    (memberWords unreviewedStore 1).length = 1 ∧
    groupTotalWords (groupStatsRows unreviewedStore 1) = 1 ∧
    groupStudiedWords (groupStatsRows unreviewedStore 1) = 0 ∧
    GetGroupStats unreviewedStore 1 =
      Outcome.error
        (GoError.wrap "failed to fetch group stats" (GoError.scanNull "last_studied_at")) := by
  have h : groupLastStudiedAt (groupStatsRows unreviewedStore 1) = none := by decide
  refine ⟨by decide, by decide, by decide, ?_⟩
  simp [GetGroupStats, h, scanString]

/-! ## Unknown activity ids -/

theorem GetStudyActivityDetails_of_not_key (activityID : Int)
    (h : activityID ∉ activityCatalog.map Prod.fst) :
    GetStudyActivityDetails activityID = Outcome.error GoError.errNoRows := by
  have hne : ¬ activityID = 1 := by
    intro h1
    apply h
    rw [h1]
    decide
  have hb : (activityID == 1) = false := by simpa using hne
  simp [GetStudyActivityDetails, activityCatalog, List.lookup, hb]

theorem activityName_of_unknown (st : Store) (activityID : Int)
    (h : activityID ∉ activityCatalog.map Prod.fst) :
    ∀ item ∈ activitySessionItems st activityID, item.activityName = "" := by
  have herr := GetStudyActivityDetails_of_not_key activityID h
  intro item hitem
  unfold activitySessionItems at hitem
  rw [List.mem_filterMap] at hitem
  obtain ⟨g, _, hg⟩ := hitem
  cases g with
  | nil => cases hg
  | cons row rest =>
    simp only [herr, Option.some.injEq] at hg
    rw [← hg]

/-- Claim C21, refuted as stated: activity 99 is not in the catalog, yet
`StartStudySession(1, 99)` creates a session for it, and afterwards
`GetStudySessionsByActivity(99, 1, 10)` returns a listing with that session
(its `activity_name` left empty); neither call fails. -/
theorem unknown_activity_is_accepted :
    GetStudyActivityDetails 99 = Outcome.error GoError.errNoRows ∧
    (StartStudySession enforcedStore 1728030000 1 99).1 =
      Outcome.ok ⟨2, 1728030000, 1, 99⟩ ∧
    GetStudySessionsByActivity (StartStudySession enforcedStore 1728030000 1 99).2 99 1 10 =
      Outcome.ok
        { items := [⟨2, "", "Numbers", 1728030000, none, 0⟩]
          pagination :=
            { currentPage := 1, totalPages := 1, totalItems := 1, itemsPerPage := 10 } } := by
  decide

/-- Claim C21, amended: an unknown activity id is a NotFound outcome only for
`GetStudyActivityDetails`.  For every activity id absent from the static
catalog, `StartStudySession` does not consult the catalog: whenever the insert
passes the group check it creates the session, carrying that activity id, and
when it fails the error is not NotFound; `GetStudySessionsByActivity` returns
normally the listing of the sessions stored under that id (their number is
`total_items`), every item with an empty `activity_name`. -/
theorem unknown_activity_not_rejected (st : Store) (now : Nat)
    (groupID activityID page perPage : Int)
    (h : activityID ∉ activityCatalog.map Prod.fst) :
    GetStudyActivityDetails activityID = Outcome.error GoError.errNoRows ∧
    (sessionInsertAllowed st groupID = true →
      ∃ session,
        StartStudySession st now groupID activityID =
          (Outcome.ok session, { st with studySessions := st.studySessions ++ [session] }) ∧
        session.studyActivityId = activityID ∧ session.groupId = groupID) ∧
    (∀ e, (StartStudySession st now groupID activityID).1 = Outcome.error e →
      isNotFound e = false) ∧
    ∃ r, GetStudySessionsByActivity st activityID page perPage = Outcome.ok r ∧
      r.pagination.totalItems =
        ((st.studySessions.filter fun ss => ss.studyActivityId == activityID).length : Int) ∧
      ∀ item ∈ r.items, item.activityName = "" := by
  refine ⟨GetStudyActivityDetails_of_not_key activityID h, ?_, ?_, ?_⟩
  · intro hallowed
    exact ⟨⟨nextId (st.studySessions.map fun s => s.id), now, groupID, activityID⟩,
      by simp [StartStudySession, hallowed], rfl, rfl⟩
  · intro e he
    by_cases hallowed : sessionInsertAllowed st groupID = true
    · simp [StartStudySession, hallowed] at he
    · simp only [StartStudySession, hallowed] at he
      injection he with he
      rw [← he]
      decide
  · obtain ⟨pages, hp⟩ := paginatedResponse_ok
      (pageOf (clampPage page) (clampPerPage perPage)
        ((activitySessionItems st activityID).insertionSort
          fun a b => b.startTime ≤ a.startTime))
      (clampPage page) (clampPerPage perPage)
      ((st.studySessions.filter fun ss => ss.studyActivityId == activityID).length : Int)
      (clampPerPage_ne_zero perPage)
    refine ⟨_, hp, rfl, ?_⟩
    intro item hitem
    have h1 := mem_of_mem_limitOffset _ _ _ _ hitem
    have h2 := (List.perm_insertionSort _ _).subset h1
    exact activityName_of_unknown st activityID h item h2

/-- Witness for `unknown_activity_not_rejected`: activity 99 in `enforcedStore`. -/
theorem unknown_activity_not_rejected_witness :
    GetStudyActivityDetails 99 = Outcome.error GoError.errNoRows ∧
    (∃ session,
      StartStudySession enforcedStore 1728030000 1 99 =
        (Outcome.ok session,
         { enforcedStore with studySessions := enforcedStore.studySessions ++ [session] }) ∧
      session.studyActivityId = 99 ∧ session.groupId = 1) ∧
    ∃ r, GetStudySessionsByActivity enforcedStore 99 1 10 = Outcome.ok r ∧
      r.pagination.totalItems =
        ((enforcedStore.studySessions.filter fun ss => ss.studyActivityId == 99).length : Int) ∧
      ∀ item ∈ r.items, item.activityName = "" :=
  let h := unknown_activity_not_rejected enforcedStore 1728030000 1 99 1 10 (by decide)
  ⟨h.1, h.2.1 (by decide), h.2.2.2⟩

/-! ## Bound parameters and query text -/

/-- The arguments of `Where` never enter the text: `Build` and `Count` return
the same text whatever argument list the builder carries. -/
theorem query_text_independent_of_args (q : QueryBuilder) (args : List SqlArg) :
    (QueryBuilder.Build { q with args := args }).1 = (QueryBuilder.Build q).1 ∧
    (QueryBuilder.Count { q with args := args }).1 = (QueryBuilder.Count q).1 ∧
    (QueryBuilder.Build (q.Where "w.id = ?" args)).1 =
      (QueryBuilder.Build (q.Where "w.id = ?" [])).1 := by
  refine ⟨rfl, rfl, rfl⟩

/-- Claim C22, evaluated: with the base, the order string and the conditions
fixed (those of `GetGroups`), the text that `Build` returns changes with `page`
and `per_page`: `Build` prints the limit and the offset into the text instead
of binding them, and its argument list stays empty.  The text of `Count` does
not change. -/
theorem Build_text_depends_on_page :
    QueryBuilder.Build
        (((QueryBuilder.New "SELECT * FROM groups").OrderBy "name ASC").Paginate 1 10) =
      ("SELECT * FROM groups ORDER BY name ASC LIMIT 10 OFFSET 0", []) ∧
    QueryBuilder.Build
        (((QueryBuilder.New "SELECT * FROM groups").OrderBy "name ASC").Paginate 2 10) =
      ("SELECT * FROM groups ORDER BY name ASC LIMIT 10 OFFSET 10", []) ∧
    QueryBuilder.Build
        (((QueryBuilder.New "SELECT * FROM groups").OrderBy "name ASC").Paginate 1 25) =
      ("SELECT * FROM groups ORDER BY name ASC LIMIT 25 OFFSET 0", []) ∧
    (QueryBuilder.Build
        (((QueryBuilder.New "SELECT * FROM groups").OrderBy "name ASC").Paginate 1 10)).1 ≠
      (QueryBuilder.Build
        (((QueryBuilder.New "SELECT * FROM groups").OrderBy "name ASC").Paginate 2 10)).1 ∧
    QueryBuilder.Count
        (((QueryBuilder.New "SELECT * FROM groups").OrderBy "name ASC").Paginate 1 10) =
      QueryBuilder.Count
        (((QueryBuilder.New "SELECT * FROM groups").OrderBy "name ASC").Paginate 2 10) := by
  decide

/-! ## Repeating GetQuickStats -/

/-- Claim C23, refuted as stated: the only session of `windowStore` was started
exactly 30 days before the first call, which counts its group as active
(`total_active_groups = 1`); a second call one second later, with no write in
between, reports `total_active_groups = 0`. -/
theorem quickStats_changes_with_clock :
    quickActiveGroups windowStore.studySessions windowNow = 1 ∧
    quickActiveGroups windowStore.studySessions (windowNow + 1) = 0 ∧
    GetQuickStats windowStore windowNow ≠ GetQuickStats windowStore (windowNow + 1) := by
  refine ⟨by decide, by decide, ?_⟩
  intro h
  have h1 : quickActiveGroups windowStore.studySessions windowNow =
      quickActiveGroups windowStore.studySessions (windowNow + 1) := by
    unfold GetQuickStats at h
    injection h with h
    injection h
  exact absurd h1 (by decide)

/-- Claim C23, amended: for every store state, two calls of `GetQuickStats` with
no write between them (the same store) both return, with identical
`success_rate`, `total_study_sessions` and `study_streak_days`;
`total_active_groups`, which counts the groups with a session in the 30 days
before the clock of the call, is identical as well, and so is the whole
result, when both calls read the same clock or, more generally, when no
session is inside that window for one call and outside it for the other. -/
theorem quickStats_repeatable (st : Store) (now1 now2 : Nat) :
    ∃ q1 q2, GetQuickStats st now1 = Outcome.ok q1 ∧ GetQuickStats st now2 = Outcome.ok q2 ∧
      q1.successRate = q2.successRate ∧
      q1.totalStudySessions = q2.totalStudySessions ∧
      q1.studyStreakDays = q2.studyStreakDays ∧
      (now1 = now2 → q1 = q2) ∧
      ((∀ s ∈ st.studySessions,
          ((now1 : Int) - 30 * secondsPerDay ≤ s.createdAt ↔
            (now2 : Int) - 30 * secondsPerDay ≤ s.createdAt)) →
        q1.totalActiveGroups = q2.totalActiveGroups ∧ q1 = q2) := by
  refine ⟨_, _, rfl, rfl, rfl, rfl, rfl, ?_, ?_⟩
  · intro h
    rw [h]
  · intro h
    have hfilter :
        (st.studySessions.filter fun s => (now1 : Int) - 30 * secondsPerDay ≤ s.createdAt) =
        (st.studySessions.filter fun s => (now2 : Int) - 30 * secondsPerDay ≤ s.createdAt) := by
      apply List.filter_congr
      intro s hs
      simp only [decide_eq_decide]
      exact h s hs
    have hactive : quickActiveGroups st.studySessions now1 =
        quickActiveGroups st.studySessions now2 := by
      unfold quickActiveGroups
      rw [hfilter]
    exact ⟨hactive, by rw [hactive]⟩

/-- Witness for `quickStats_repeatable`: two calls on `windowStore` at the same
clock, and two calls one second apart while the session is well inside the
window. -/
theorem quickStats_repeatable_witness :
    (∃ q1 q2, GetQuickStats windowStore windowNow = Outcome.ok q1 ∧
      GetQuickStats windowStore windowNow = Outcome.ok q2 ∧ q1 = q2) ∧
    (∃ q1 q2, GetQuickStats windowStore 1725437000 = Outcome.ok q1 ∧
      GetQuickStats windowStore 1725437001 = Outcome.ok q2 ∧ q1 = q2) :=
  ⟨match quickStats_repeatable windowStore windowNow windowNow with
    | ⟨q1, q2, h1, h2, _, _, _, hsame, _⟩ => ⟨q1, q2, h1, h2, hsame rfl⟩,
   match quickStats_repeatable windowStore 1725437000 1725437001 with
    | ⟨q1, q2, h1, h2, _, _, _, _, hwin⟩ => ⟨q1, q2, h1, h2, (hwin (by decide)).2⟩⟩

/-! ## The streak of the query against the streak of the specification -/

theorem date_mono (a b : Nat) (h : a ≤ b) : date a ≤ date b :=
  Nat.div_le_div_right h

theorem date_step (p c : Nat) (h : c ≤ p + secondsPerDay) : date c ≤ date p + 1 := by
  unfold date
  have h1 : c / secondsPerDay ≤ (p + secondsPerDay) / secondsPerDay := Nat.div_le_div_right h
  have h2 : (p + secondsPerDay) / secondsPerDay = p / secondsPerDay + 1 :=
    Nat.add_div_right p (by decide)
  omega

theorem lagGaps_cons_some (p c : Nat) (rest : List Nat) :
    lagGaps (some p) (c :: rest) = (c, some ((c : Int) - (p : Int))) :: lagGaps (some c) rest :=
  rfl

theorem lagGaps_map_fst (prev : Option Nat) (l : List Nat) :
    (lagGaps prev l).map (fun row => row.1) = l := by
  induction l generalizing prev with
  | nil => rfl
  | cons c rest ih =>
    simp only [lagGaps, List.map_cons, ih]

/-- Between the boundary and any later session every calendar day has a
session: a timestamp list in which no gap above the bound `b` exceeds one day
covers every date from `date b` up to the date of each of its elements. -/
theorem covered_dates (l : List Nat) (p b : Nat) (hp : p ≤ b)
    (hflag : ∀ row ∈ lagGaps (some p) l, gapBreaks row.2 = true → row.1 ≤ b) :
    ∀ t' ∈ p :: l, ∀ d, date b ≤ d → d ≤ date t' → ∃ t ∈ p :: l, date t = d := by
  induction l generalizing p b with
  | nil =>
    intro t' ht' d hd1 hd2
    have ht : t' = p := by simpa using ht'
    subst ht
    have := date_mono _ _ hp
    exact ⟨t', List.mem_singleton_self _, by omega⟩
  | cons c rest ih =>
    intro t' ht' d hd1 hd2
    rw [lagGaps_cons_some] at hflag
    have hrest : ∀ row ∈ lagGaps (some c) rest, gapBreaks row.2 = true → row.1 ≤ b :=
      fun row hrow => hflag row (List.mem_cons_of_mem _ hrow)
    rcases List.mem_cons.mp ht' with ht | ht
    · subst ht
      have := date_mono _ _ hp
      exact ⟨t', List.mem_cons_self _ _, by omega⟩
    · by_cases hbc : c ≤ b
      · obtain ⟨t, htmem, htd⟩ := ih c b hbc hrest t' ht d hd1 hd2
        exact ⟨t, List.mem_cons_of_mem _ htmem, htd⟩
      · have hnot : ¬ gapBreaks (some ((c : Int) - (p : Int))) = true := by
          intro hg
          exact hbc (hflag (c, some ((c : Int) - (p : Int))) (List.mem_cons_self _ _) hg)
        have hgap : c ≤ p + secondsPerDay := by
          simp only [gapBreaks, decide_eq_true_eq, not_lt] at hnot
          omega
        by_cases hd : date c ≤ d
        · have hrest' : ∀ row ∈ lagGaps (some c) rest, gapBreaks row.2 = true → row.1 ≤ c :=
            fun row hrow hg => by
              have := hrest row hrow hg
              omega
          obtain ⟨t, htmem, htd⟩ := ih c c (le_refl c) hrest' t' ht d hd hd2
          exact ⟨t, List.mem_cons_of_mem _ htmem, htd⟩
        · have h1 := date_step p c hgap
          have h2 := date_mono _ _ hp
          exact ⟨p, List.mem_cons_self _ _, by omega⟩

theorem foldl_max_nat_ge_init (xs : List Nat) (init : Nat) : init ≤ xs.foldl max init := by
  induction xs generalizing init with
  | nil => exact le_refl _
  | cons x rest ih => exact le_trans (le_max_left init x) (ih (max init x))

theorem foldl_max_nat_ge_mem (xs : List Nat) (init x : Nat) (hx : x ∈ xs) :
    x ≤ xs.foldl max init := by
  induction xs generalizing init with
  | nil => cases hx
  | cons y rest ih =>
    rcases List.mem_cons.mp hx with h | h
    · subst h
      exact le_trans (le_max_right init x) (foldl_max_nat_ge_init rest (max init x))
    · exact ih (max init y) h

theorem foldl_max_nat_mem (xs : List Nat) (init : Nat) : xs.foldl max init ∈ init :: xs := by
  induction xs generalizing init with
  | nil => exact List.mem_singleton_self _
  | cons y rest ih =>
    have h := ih (max init y)
    rcases List.mem_cons.mp h with h1 | h1
    · rw [List.foldl_cons, h1]
      rcases max_choice init y with hm | hm
      · rw [hm]
        exact List.mem_cons_self _ _
      · rw [hm]
        exact List.mem_cons_of_mem _ (List.mem_cons_self _ _)
    · exact List.mem_cons_of_mem _ (List.mem_cons_of_mem _ h1)

/-- The boundary of the streak query over a non-empty ordered timestamp list:
it is one of the timestamps, not before the first one, and no row flagged by
`gap > 1` lies after it. -/
theorem boundary_of_ordered (t1 : Nat) (rest : List Nat) :
    ∃ b, sqlMax (((lagGaps none (t1 :: rest)).filter fun row => gapBreaks row.2).map
        fun row => row.1) = some b ∧
      b ∈ t1 :: rest ∧ t1 ≤ b ∧
      ∀ row ∈ lagGaps (some t1) rest, gapBreaks row.2 = true → row.1 ≤ b := by
  have hshape : ((lagGaps none (t1 :: rest)).filter fun row => gapBreaks row.2).map
      (fun row => row.1) =
      t1 :: ((lagGaps (some t1) rest).filter fun row => gapBreaks row.2).map
        fun row => row.1 := by
    simp [lagGaps, gapBreaks, List.filter_cons]
  rw [hshape]
  refine ⟨_, rfl, ?_, foldl_max_nat_ge_init _ _, ?_⟩
  · have hmem := foldl_max_nat_mem
      (((lagGaps (some t1) rest).filter fun row => gapBreaks row.2).map fun row => row.1) t1
    rcases List.mem_cons.mp hmem with h | h
    · rw [h]
      exact List.mem_cons_self _ _
    · apply List.mem_cons_of_mem
      obtain ⟨row, hrow, hfst⟩ := List.mem_map.mp h
      have : row.1 ∈ (lagGaps (some t1) rest).map fun row => row.1 :=
        List.mem_map_of_mem (fun row => row.1) (List.mem_filter.mp hrow).1
      rw [lagGaps_map_fst] at this
      rw [← hfst]
      exact this
  · intro row hrow hg
    have hm : row ∈ (lagGaps (some t1) rest).filter fun row => gapBreaks row.2 :=
      List.mem_filter.mpr ⟨hrow, hg⟩
    exact foldl_max_nat_ge_mem _ t1 row.1 (List.mem_map_of_mem (fun row => row.1) hm)

theorem one_le_consecutiveRun (d : Nat) (rest : List Nat) :
    1 ≤ consecutiveRun (d :: rest) := by
  cases rest with
  | nil => exact le_refl 1
  | cons e rest' =>
    simp only [consecutiveRun]
    split <;> omega

/-- A strictly descending list of days that holds every day from `lo` up to its
head `D` starts with a run of at least `D - lo + 1` consecutive days. -/
theorem consecutiveRun_ge (L : List Nat) :
    ∀ D rest, L = D :: rest → List.Pairwise (fun a b => b < a) L →
      ∀ lo, lo ≤ D → (∀ d, lo ≤ d → d ≤ D → d ∈ L) → D - lo + 1 ≤ consecutiveRun L := by
  induction L with
  | nil => intro D rest h; cases h
  | cons x xs ih =>
    intro D rest hL hpair lo hlo hall
    injection hL with hx hxs
    subst hx
    cases xs with
    | nil =>
      have hmem := hall lo (le_refl lo) hlo
      have : lo = x := by simpa using hmem
      simp only [consecutiveRun]
      omega
    | cons e rest' =>
      have hpair' := List.pairwise_cons.mp hpair
      have hex : e < x := hpair'.1 e (List.mem_cons_self _ _)
      by_cases hlx : lo = x
      · have := one_le_consecutiveRun x (e :: rest')
        omega
      · have hpred : x - 1 ∈ x :: e :: rest' := hall (x - 1) (by omega) (by omega)
        have hpred' : x - 1 ∈ e :: rest' := by
          rcases List.mem_cons.mp hpred with h | h
          · omega
          · exact h
        have hle : x - 1 ≤ e := by
          rcases List.mem_cons.mp hpred' with h | h
          · omega
          · have := (List.pairwise_cons.mp hpair'.2).1 (x - 1) h
            omega
        have hxe : x = e + 1 := by omega
        have hrec := ih e rest' rfl hpair'.2 lo (by omega) (by
          intro d hd1 hd2
          have hd := hall d hd1 (by omega)
          rcases List.mem_cons.mp hd with h | h
          · omega
          · exact h)
        simp only [consecutiveRun, if_pos hxe]
        omega

theorem length_dedup_le_of_range (xs : List Nat) (lo hi : Nat)
    (h : ∀ x ∈ xs, lo ≤ x ∧ x ≤ hi) : xs.dedup.length ≤ hi - lo + 1 := by
  have hsub : xs ⊆ List.range' lo (hi - lo + 1) := by
    intro x hx
    have := h x hx
    rw [List.mem_range'_1]
    omega
  have := length_dedup_le_of_subset xs (List.range' lo (hi - lo + 1)) hsub
  rw [List.length_range'] at this
  exact this

/-- The descending list of distinct session dates of a non-empty history: its
head is a session date, no session date is later, and the list is strictly
descending and holds exactly the session dates. -/
theorem specDates_head (sessions : List StudySession) (hne : sessions ≠ []) :
    ∃ D rest,
      (((sessions.map fun s => date s.createdAt).dedup).insertionSort fun a b => b ≤ a) =
        D :: rest ∧
      List.Pairwise (fun a b => b < a) (D :: rest) ∧
      (∀ d, d ∈ D :: rest ↔ ∃ s ∈ sessions, date s.createdAt = d) ∧
      (∃ s ∈ sessions, date s.createdAt = D) ∧
      ∀ s ∈ sessions, date s.createdAt ≤ D := by
  haveI : IsTotal Nat (fun a b => b ≤ a) := ⟨fun a b => Nat.le_total b a⟩
  haveI : IsTrans Nat (fun a b => b ≤ a) := ⟨fun _ _ _ hab hbc => Nat.le_trans hbc hab⟩
  have hperm := List.perm_insertionSort (fun a b : Nat => b ≤ a)
    ((sessions.map fun s => date s.createdAt).dedup)
  have hsorted := List.sorted_insertionSort (fun a b : Nat => b ≤ a)
    ((sessions.map fun s => date s.createdAt).dedup)
  have hnodup : (((sessions.map fun s => date s.createdAt).dedup).insertionSort
      fun a b => b ≤ a).Nodup := hperm.nodup_iff.mpr (List.nodup_dedup _)
  have hmem : ∀ d, d ∈ (((sessions.map fun s => date s.createdAt).dedup).insertionSort
      fun a b => b ≤ a) ↔ ∃ s ∈ sessions, date s.createdAt = d := by
    intro d
    rw [hperm.mem_iff, List.mem_dedup, List.mem_map]
  cases hL : ((sessions.map fun s => date s.createdAt).dedup).insertionSort
      fun a b => b ≤ a with
  | nil =>
    obtain ⟨s, hs⟩ := List.exists_mem_of_ne_nil sessions hne
    have := (hmem (date s.createdAt)).mpr ⟨s, hs, rfl⟩
    rw [hL] at this
    cases this
  | cons D rest =>
    rw [hL] at hsorted hnodup hmem
    have hpair : List.Pairwise (fun a b => b < a) (D :: rest) := by
      have h1 : List.Pairwise (fun a b => b ≤ a) (D :: rest) := hsorted
      have h2 : List.Pairwise (fun a b => a ≠ b) (D :: rest) := hnodup
      exact (h1.and h2).imp (fun h => lt_of_le_of_ne h.1 (Ne.symm h.2))
    refine ⟨D, rest, rfl, hpair, hmem, (hmem D).mp (List.mem_cons_self _ _), ?_⟩
    intro s hs
    have hin := (hmem (date s.createdAt)).mpr ⟨s, hs, rfl⟩
    rcases List.mem_cons.mp hin with h | h
    · omega
    · exact le_of_lt ((List.pairwise_cons.mp hpair).1 _ h)

/-- The boundary of the streak query for a non-empty history, with what the
proof of the bounds needs: the boundary is the timestamp of a session, and from
its date up to the date of any session every day has a session. -/
theorem streakBoundary_spec (sessions : List StudySession) (hne : sessions ≠ []) :
    ∃ b, streakBoundary sessions = some b ∧
      (∃ s ∈ sessions, s.createdAt = b) ∧
      ∀ s' ∈ sessions, ∀ d, date b ≤ d → d ≤ date s'.createdAt →
        ∃ s ∈ sessions, date s.createdAt = d := by
  have hperm := List.perm_insertionSort (fun a b : Nat => a ≤ b)
    (sessions.map fun s => s.createdAt)
  have hmem : ∀ t, t ∈ (sessions.map fun s => s.createdAt).insertionSort (fun a b => a ≤ b) ↔
      ∃ s ∈ sessions, s.createdAt = t := by
    intro t
    rw [hperm.mem_iff, List.mem_map]
  cases hts : (sessions.map fun s => s.createdAt).insertionSort (fun a b => a ≤ b) with
  | nil =>
    obtain ⟨s, hs⟩ := List.exists_mem_of_ne_nil sessions hne
    have := (hmem s.createdAt).mpr ⟨s, hs, rfl⟩
    rw [hts] at this
    cases this
  | cons t1 rest =>
    rw [hts] at hmem
    obtain ⟨b, hb, hbmem, hb1, hbflag⟩ := boundary_of_ordered t1 rest
    refine ⟨b, ?_, (hmem b).mp hbmem, ?_⟩
    · unfold streakBoundary
      simp only [hts]
      exact hb
    · intro s' hs' d hd1 hd2
      have ht' : s'.createdAt ∈ t1 :: rest := (hmem _).mpr ⟨s', hs', rfl⟩
      obtain ⟨t, ht, htd⟩ := covered_dates rest t1 b hb1 hbflag _ ht' d hd1 hd2
      obtain ⟨s, hs, hst⟩ := (hmem t).mp ht
      exact ⟨s, hs, by rw [hst]; exact htd⟩

/-- Claim C25: for every non-empty session history `GetQuickStats` returns a
`study_streak_days` that is at least 1 and at most the calendar-date streak of
the specification; and a session is counted (its `created_at` is not before
the boundary of the query) only if every calendar day from its date up to the
date of any session has a session, so that a session dated before a calendar
gap is never counted. -/
theorem streak_between_one_and_spec (st : Store) (now : Nat) (hne : st.studySessions ≠ []) :
    ∃ q, GetQuickStats st now = Outcome.ok q ∧
      1 ≤ q.studyStreakDays ∧
      q.studyStreakDays ≤ specStreakDays st.studySessions ∧
      ∃ b, streakBoundary st.studySessions = some b ∧
        q.studyStreakDays =
          (((st.studySessions.filter fun s => decide (b ≤ s.createdAt)).map
            fun s => date s.createdAt).dedup).length ∧
        ∀ s ∈ st.studySessions, b ≤ s.createdAt →
          ∀ s' ∈ st.studySessions, ∀ d, date s.createdAt ≤ d → d ≤ date s'.createdAt →
            ∃ s'' ∈ st.studySessions, date s''.createdAt = d := by
  obtain ⟨b, hb, ⟨sb, hsb, hsbt⟩, hcover⟩ := streakBoundary_spec st.studySessions hne
  obtain ⟨D, rest, hL, hpair, hLmem, ⟨sD, hsD, hsDd⟩, hmax⟩ := specDates_head st.studySessions hne
  have hdays : streakDays st.studySessions =
      (((st.studySessions.filter fun s => decide (b ≤ s.createdAt)).map
        fun s => date s.createdAt).dedup).length := by
    unfold streakDays
    rw [hb]
  have hbD : date b ≤ D := by
    rw [← hsbt]
    exact hmax sb hsb
  refine ⟨_, rfl, ?_, ?_, b, hb, hdays, ?_⟩
  · show 1 ≤ streakDays st.studySessions
    rw [hdays]
    have hin : date b ∈ ((st.studySessions.filter fun s => decide (b ≤ s.createdAt)).map
        fun s => date s.createdAt).dedup := by
      rw [List.mem_dedup, List.mem_map]
      exact ⟨sb, List.mem_filter.mpr ⟨hsb, by simp [hsbt]⟩, by rw [hsbt]⟩
    exact List.length_pos_of_mem hin
  · show streakDays st.studySessions ≤ specStreakDays st.studySessions
    rw [hdays]
    have hupper : (((st.studySessions.filter fun s => decide (b ≤ s.createdAt)).map
        fun s => date s.createdAt).dedup).length ≤ D - date b + 1 := by
      apply length_dedup_le_of_range
      intro x hx
      obtain ⟨s, hs, hsx⟩ := List.mem_map.mp hx
      have hs' := List.mem_filter.mp hs
      have hbs : b ≤ s.createdAt := by simpa using hs'.2
      rw [← hsx]
      exact ⟨date_mono _ _ hbs, hmax s hs'.1⟩
    have hlower : D - date b + 1 ≤ specStreakDays st.studySessions := by
      unfold specStreakDays
      rw [hL]
      apply consecutiveRun_ge (D :: rest) D rest rfl hpair (date b) hbD
      intro d hd1 hd2
      rw [hLmem]
      exact hcover sD hsD d hd1 (by rw [hsDd]; exact hd2)
    omega
  · intro s hs hbs s' hs' d hd1 hd2
    exact hcover s' hs' d (le_trans (date_mono _ _ hbs) hd1) hd2

/-- Witness for `streak_between_one_and_spec`: the three consecutive days of
`threeDayStore`. -/
theorem streak_between_one_and_spec_witness :
    ∃ q, GetQuickStats threeDayStore 1728212400 = Outcome.ok q ∧
      1 ≤ q.studyStreakDays ∧
      q.studyStreakDays ≤ specStreakDays threeDayStore.studySessions ∧
      ∃ b, streakBoundary threeDayStore.studySessions = some b ∧
        q.studyStreakDays =
          (((threeDayStore.studySessions.filter fun s => decide (b ≤ s.createdAt)).map
            fun s => date s.createdAt).dedup).length ∧
        ∀ s ∈ threeDayStore.studySessions, b ≤ s.createdAt →
          ∀ s' ∈ threeDayStore.studySessions, ∀ d, date s.createdAt ≤ d →
            d ≤ date s'.createdAt →
            ∃ s'' ∈ threeDayStore.studySessions, date s''.createdAt = d :=
  streak_between_one_and_spec threeDayStore 1728212400 (by decide)

/-! ## The metadata blob of a word -/

/-- Claim C26, evaluated: word 1 is stored with the parts `[]` and is a member
of group 1; `GetWordByID` and `GetGroupWordsPaginated` return it with those
parts, `GetGroupByID` returns it with empty parts: its scan loop reads the
blob into a local variable and never stores it in the word. -/
theorem GetGroupByID_drops_parts :
    (⟨1, "一", "one", "[]", 1727000000⟩ : Word) ∈ threeWordStore.words ∧
    GetWordByID threeWordStore 1 =
      Outcome.ok ⟨⟨1, "一", "one", "[]", 1727000000⟩, ⟨1, 0⟩⟩ ∧
    GetGroupWordsPaginated threeWordStore 1 1 10 =
      Outcome.ok
        { items := [⟨1, "一", "one", "[]", 1727000000⟩, ⟨2, "二", "two", "[]", 1727000000⟩,
            ⟨3, "三", "three", "[]", 1727000000⟩]
          pagination :=
            { currentPage := 1, totalPages := 1, totalItems := 3, itemsPerPage := 10 } } ∧
    GetGroupByID threeWordStore 1 =
      Outcome.ok
        { group := ⟨1, "Numbers", 1727000000⟩
          words := [⟨1, "一", "one", "", 1727000000⟩, ⟨2, "二", "two", "", 1727000000⟩,
            ⟨3, "三", "three", "", 1727000000⟩] } := by
  decide

/-- Every word that `GetGroupByID` returns has empty parts, whatever is
stored. -/
theorem GetGroupByID_parts_empty (st : Store) (id : Int) (r : GroupWithWords)
    (h : GetGroupByID st id = Outcome.ok r) : ∀ w ∈ r.words, w.parts = "" := by
  unfold GetGroupByID at h
  split at h
  · cases h
  · injection h with h
    intro w hw
    rw [← h] at hw
    obtain ⟨v, _, hv⟩ := List.mem_map.mp hw
    rw [← hv]
    rfl

/-! ## Page and page size behind the handlers -/

theorem clampPage_ge_one (page : Int) : 1 ≤ clampPage page := by
  unfold clampPage
  split <;> omega

theorem clampPerPage_range (perPage : Int) :
    1 ≤ clampPerPage perPage ∧ clampPerPage perPage ≤ 100 ∧
    clampPerPage perPage = (if 1 ≤ perPage ∧ perPage ≤ 100 then perPage else 100) := by
  unfold clampPerPage
  split <;> split <;> omega

theorem guarded_paginatedResponse {α : Type} (items : List α) (page perPage total : Int) :
    Guarded (paginatedResponse items (clampPage page) (clampPerPage perPage) total)
      page perPage := by
  obtain ⟨pages, hp⟩ := paginatedResponse_ok items (clampPage page) (clampPerPage perPage) total
    (clampPerPage_ne_zero perPage)
  obtain ⟨h1, h2, h3⟩ := clampPerPage_range perPage
  exact ⟨_, hp, rfl, clampPage_ge_one page, h3, h1, h2⟩

/-- Claim C27: for all integers `page` and `per_page` parsed from a request,
each of the seven listings reached through its HTTP handler returns normally
(the division by the page size does not panic) and reports
`current_page >= 1` (`page` itself, or 1 when `page < 1`) and
`1 <= items_per_page <= 100` (`per_page` itself when it lies in 1..100, and 100
otherwise). -/
theorem handlers_report_guarded_pages (st : Store) (id page perPage : Int) :
    Guarded (GroupHandler.GetGroups st page perPage) page perPage ∧
    Guarded (WordHandler.GetWords st page perPage) page perPage ∧
    Guarded (GroupHandler.GetGroupWords st id page perPage) page perPage ∧
    Guarded (GroupHandler.GetGroupStudySessions st id page perPage) page perPage ∧
    Guarded (StudyHandler.GetStudySessions st page perPage) page perPage ∧
    Guarded (StudyHandler.GetStudySessionWords st id page perPage) page perPage ∧
    Guarded (StudyHandler.GetActivityStudySessions st id page perPage) page perPage :=
  ⟨guarded_paginatedResponse _ page perPage _, guarded_paginatedResponse _ page perPage _,
   guarded_paginatedResponse _ page perPage _, guarded_paginatedResponse _ page perPage _,
   guarded_paginatedResponse _ page perPage _, guarded_paginatedResponse _ page perPage _,
   guarded_paginatedResponse _ page perPage _⟩

end LangPortal
